import Mathlib

/-!
# Change of basis between axis-aligned coordinate frames

A shallow embedding of `changeOfBasis.cpp` / `changeOfBasis.h` (namespace `cob`) and of the
parts of the test math library `Math.cpp` that the cross-checks use.

* C++ `int` values (axis directions, case numbers) are `Int`; `x & 3` is `Int.land x 3` and
  `s |= k` is `Int.lor s k`.  No arithmetic in the program can leave the 32-bit range.
* C++ `double` values are elements of an arbitrary commutative ring `α` (exact arithmetic).
* Functions that update their arguments through references return the updated values.
  A `switch` without `default` leaves the arguments as they were for any other case number.
-/

namespace cob

/-! ## Data model (`changeOfBasis.h`, `Math.h`) -/

def FORWARD : Int := 0
def RIGHT : Int := 1
def UP : Int := 2
def BACK : Int := 4
def LEFT : Int := 5
def DOWN : Int := 6

/-- A reference frame: the directions of the X, Y and Z axes (`struct triple`). -/
structure triple where
  a : Int
  b : Int
  c : Int
deriving DecidableEq

/-- A 3x3 matrix, entry `mRC` being row `R`, column `C` (`ColumnMatrix3d::_m[R][C]`). -/
structure ColumnMatrix3d (α : Type) where
  m00 : α
  m01 : α
  m02 : α
  m10 : α
  m11 : α
  m12 : α
  m20 : α
  m21 : α
  m22 : α
deriving DecidableEq

/-- A vector with three components (`Vector3d`, and the three references of `vectorCob`). -/
structure Vector3d (α : Type) where
  x : α
  y : α
  z : α
deriving DecidableEq

/-- A quaternion (`Quat4d`, and the four references of `quatCob`). -/
structure Quat4d (α : Type) where
  w : α
  x : α
  y : α
  z : α
deriving DecidableEq

def Unreal3Frame : triple := ⟨FORWARD, RIGHT, UP⟩
def OpenGLFrame : triple := ⟨LEFT, UP, FORWARD⟩
def OculusFrame : triple := ⟨RIGHT, UP, BACK⟩
def BvhFrame : triple := ⟨LEFT, UP, FORWARD⟩
def BvhBlenderFrame : triple := ⟨LEFT, FORWARD, UP⟩
def KinectFrame : triple := ⟨RIGHT, UP, BACK⟩
def PrioVRFrame : triple := ⟨RIGHT, UP, FORWARD⟩

/-! ## The case classifier (`changeOfBasis.cpp`) -/

/-- Source: `return ((from & 3) == (to & 3));` -/
def matchDirection (d1 d2 : Int) : Bool :=
  Int.land d1 3 == Int.land d2 3

/-- Source: `getCaseNumber`.  The local `p` and `s` start at 0; the branch for
`matchDirection(from.a, toFrame.b)` has no final `else`, so there both keep their value. -/
def getCaseNumber (fromFrame toFrame : triple) : Int :=
  let p : Int := 0
  let s : Int := 0
  if matchDirection fromFrame.a toFrame.a then
    let s := Int.lor s (if fromFrame.a != toFrame.a then 4 else 0)
    if matchDirection fromFrame.b toFrame.b then
      let p : Int := 0
      let s := Int.lor s (if fromFrame.b != toFrame.b then 2 else 0)
      let s := Int.lor s (if fromFrame.c != toFrame.c then 1 else 0)
      p * 8 + s
    else
      let p : Int := 1
      let s := Int.lor s (if fromFrame.b != toFrame.c then 2 else 0)
      let s := Int.lor s (if fromFrame.c != toFrame.b then 1 else 0)
      p * 8 + s
  else if matchDirection fromFrame.a toFrame.b then
    let s := Int.lor s (if fromFrame.a != toFrame.b then 4 else 0)
    if matchDirection fromFrame.b toFrame.a then
      let p : Int := 2
      let s := Int.lor s (if fromFrame.b != toFrame.a then 2 else 0)
      let s := Int.lor s (if fromFrame.c != toFrame.c then 1 else 0)
      p * 8 + s
    else if matchDirection fromFrame.b toFrame.c then
      let p : Int := 3
      let s := Int.lor s (if fromFrame.b != toFrame.c then 2 else 0)
      let s := Int.lor s (if fromFrame.c != toFrame.a then 1 else 0)
      p * 8 + s
    else
      p * 8 + s
  else
    let s := Int.lor s (if fromFrame.a != toFrame.c then 4 else 0)
    if matchDirection fromFrame.b toFrame.a then
      let p : Int := 4
      let s := Int.lor s (if fromFrame.b != toFrame.a then 2 else 0)
      let s := Int.lor s (if fromFrame.c != toFrame.b then 1 else 0)
      p * 8 + s
    else
      let p : Int := 5
      let s := Int.lor s (if fromFrame.b != toFrame.b then 2 else 0)
      let s := Int.lor s (if fromFrame.c != toFrame.a then 1 else 0)
      p * 8 + s

/-! ## The appliers (`changeOfBasis.cpp`) -/

/-- Source: `matrixCob3x3`.  The argument `a` holds the values the source copies into
`m00 .. m22` before the `switch`; the result holds the final values of `a00 .. a22`. -/
def matrixCob3x3 {α : Type} [Neg α] (caseNumber : Int) (a : ColumnMatrix3d α) :
    ColumnMatrix3d α :=
  match caseNumber with
  | 0 =>
    ⟨ a.m00,  a.m01,  a.m02,
      a.m10,  a.m11,  a.m12,
      a.m20,  a.m21,  a.m22⟩
  | 1 =>
    ⟨ a.m00,  a.m01, -a.m02,
      a.m10,  a.m11, -a.m12,
     -a.m20, -a.m21,  a.m22⟩
  | 2 =>
    ⟨ a.m00, -a.m01,  a.m02,
     -a.m10,  a.m11, -a.m12,
      a.m20, -a.m21,  a.m22⟩
  | 3 =>
    ⟨ a.m00, -a.m01, -a.m02,
     -a.m10,  a.m11,  a.m12,
     -a.m20,  a.m21,  a.m22⟩
  | 4 =>
    ⟨ a.m00, -a.m01, -a.m02,
     -a.m10,  a.m11,  a.m12,
     -a.m20,  a.m21,  a.m22⟩
  | 5 =>
    ⟨ a.m00, -a.m01,  a.m02,
     -a.m10,  a.m11, -a.m12,
      a.m20, -a.m21,  a.m22⟩
  | 6 =>
    ⟨ a.m00,  a.m01, -a.m02,
      a.m10,  a.m11, -a.m12,
     -a.m20, -a.m21,  a.m22⟩
  | 7 =>
    ⟨ a.m00,  a.m01,  a.m02,
      a.m10,  a.m11,  a.m12,
      a.m20,  a.m21,  a.m22⟩
  | 8 =>
    ⟨ a.m00,  a.m02,  a.m01,
      a.m20,  a.m22,  a.m21,
      a.m10,  a.m12,  a.m11⟩
  | 9 =>
    ⟨ a.m00, -a.m02,  a.m01,
     -a.m20,  a.m22, -a.m21,
      a.m10, -a.m12,  a.m11⟩
  | 10 =>
    ⟨ a.m00,  a.m02, -a.m01,
      a.m20,  a.m22, -a.m21,
     -a.m10, -a.m12,  a.m11⟩
  | 11 =>
    ⟨ a.m00, -a.m02, -a.m01,
     -a.m20,  a.m22,  a.m21,
     -a.m10,  a.m12,  a.m11⟩
  | 12 =>
    ⟨ a.m00, -a.m02, -a.m01,
     -a.m20,  a.m22,  a.m21,
     -a.m10,  a.m12,  a.m11⟩
  | 13 =>
    ⟨ a.m00,  a.m02, -a.m01,
      a.m20,  a.m22, -a.m21,
     -a.m10, -a.m12,  a.m11⟩
  | 14 =>
    ⟨ a.m00, -a.m02,  a.m01,
     -a.m20,  a.m22, -a.m21,
      a.m10, -a.m12,  a.m11⟩
  | 15 =>
    ⟨ a.m00,  a.m02,  a.m01,
      a.m20,  a.m22,  a.m21,
      a.m10,  a.m12,  a.m11⟩
  | 16 =>
    ⟨ a.m11,  a.m10,  a.m12,
      a.m01,  a.m00,  a.m02,
      a.m21,  a.m20,  a.m22⟩
  | 17 =>
    ⟨ a.m11,  a.m10, -a.m12,
      a.m01,  a.m00, -a.m02,
     -a.m21, -a.m20,  a.m22⟩
  | 18 =>
    ⟨ a.m11, -a.m10, -a.m12,
     -a.m01,  a.m00,  a.m02,
     -a.m21,  a.m20,  a.m22⟩
  | 19 =>
    ⟨ a.m11, -a.m10,  a.m12,
     -a.m01,  a.m00, -a.m02,
      a.m21, -a.m20,  a.m22⟩
  | 20 =>
    ⟨ a.m11, -a.m10,  a.m12,
     -a.m01,  a.m00, -a.m02,
      a.m21, -a.m20,  a.m22⟩
  | 21 =>
    ⟨ a.m11, -a.m10, -a.m12,
     -a.m01,  a.m00,  a.m02,
     -a.m21,  a.m20,  a.m22⟩
  | 22 =>
    ⟨ a.m11,  a.m10, -a.m12,
      a.m01,  a.m00, -a.m02,
     -a.m21, -a.m20,  a.m22⟩
  | 23 =>
    ⟨ a.m11,  a.m10,  a.m12,
      a.m01,  a.m00,  a.m02,
      a.m21,  a.m20,  a.m22⟩
  | 24 =>
    ⟨ a.m22,  a.m20,  a.m21,
      a.m02,  a.m00,  a.m01,
      a.m12,  a.m10,  a.m11⟩
  | 25 =>
    ⟨ a.m22, -a.m20, -a.m21,
     -a.m02,  a.m00,  a.m01,
     -a.m12,  a.m10,  a.m11⟩
  | 26 =>
    ⟨ a.m22,  a.m20, -a.m21,
      a.m02,  a.m00, -a.m01,
     -a.m12, -a.m10,  a.m11⟩
  | 27 =>
    ⟨ a.m22, -a.m20,  a.m21,
     -a.m02,  a.m00, -a.m01,
      a.m12, -a.m10,  a.m11⟩
  | 28 =>
    ⟨ a.m22, -a.m20,  a.m21,
     -a.m02,  a.m00, -a.m01,
      a.m12, -a.m10,  a.m11⟩
  | 29 =>
    ⟨ a.m22,  a.m20, -a.m21,
      a.m02,  a.m00, -a.m01,
     -a.m12, -a.m10,  a.m11⟩
  | 30 =>
    ⟨ a.m22, -a.m20, -a.m21,
     -a.m02,  a.m00,  a.m01,
     -a.m12,  a.m10,  a.m11⟩
  | 31 =>
    ⟨ a.m22,  a.m20,  a.m21,
      a.m02,  a.m00,  a.m01,
      a.m12,  a.m10,  a.m11⟩
  | 32 =>
    ⟨ a.m11,  a.m12,  a.m10,
      a.m21,  a.m22,  a.m20,
      a.m01,  a.m02,  a.m00⟩
  | 33 =>
    ⟨ a.m11, -a.m12,  a.m10,
     -a.m21,  a.m22, -a.m20,
      a.m01, -a.m02,  a.m00⟩
  | 34 =>
    ⟨ a.m11, -a.m12, -a.m10,
     -a.m21,  a.m22,  a.m20,
     -a.m01,  a.m02,  a.m00⟩
  | 35 =>
    ⟨ a.m11,  a.m12, -a.m10,
      a.m21,  a.m22, -a.m20,
     -a.m01, -a.m02,  a.m00⟩
  | 36 =>
    ⟨ a.m11,  a.m12, -a.m10,
      a.m21,  a.m22, -a.m20,
     -a.m01, -a.m02,  a.m00⟩
  | 37 =>
    ⟨ a.m11, -a.m12, -a.m10,
     -a.m21,  a.m22,  a.m20,
     -a.m01,  a.m02,  a.m00⟩
  | 38 =>
    ⟨ a.m11, -a.m12,  a.m10,
     -a.m21,  a.m22, -a.m20,
      a.m01, -a.m02,  a.m00⟩
  | 39 =>
    ⟨ a.m11,  a.m12,  a.m10,
      a.m21,  a.m22,  a.m20,
      a.m01,  a.m02,  a.m00⟩
  | 40 =>
    ⟨ a.m22,  a.m21,  a.m20,
      a.m12,  a.m11,  a.m10,
      a.m02,  a.m01,  a.m00⟩
  | 41 =>
    ⟨ a.m22, -a.m21, -a.m20,
     -a.m12,  a.m11,  a.m10,
     -a.m02,  a.m01,  a.m00⟩
  | 42 =>
    ⟨ a.m22, -a.m21,  a.m20,
     -a.m12,  a.m11, -a.m10,
      a.m02, -a.m01,  a.m00⟩
  | 43 =>
    ⟨ a.m22,  a.m21, -a.m20,
      a.m12,  a.m11, -a.m10,
     -a.m02, -a.m01,  a.m00⟩
  | 44 =>
    ⟨ a.m22,  a.m21, -a.m20,
      a.m12,  a.m11, -a.m10,
     -a.m02, -a.m01,  a.m00⟩
  | 45 =>
    ⟨ a.m22, -a.m21,  a.m20,
     -a.m12,  a.m11, -a.m10,
      a.m02, -a.m01,  a.m00⟩
  | 46 =>
    ⟨ a.m22, -a.m21, -a.m20,
     -a.m12,  a.m11,  a.m10,
     -a.m02,  a.m01,  a.m00⟩
  | 47 =>
    ⟨ a.m22,  a.m21,  a.m20,
      a.m12,  a.m11,  a.m10,
      a.m02,  a.m01,  a.m00⟩
  | _ => a

/-- Source: `getAtoBMatrix`.  The argument `m` holds the values of the nine references on
entry, which the source leaves alone when no `case` applies. -/
def getAtoBMatrix {α : Type} [Zero α] [One α] [Neg α] (caseNumber : Int)
    (m : ColumnMatrix3d α) : ColumnMatrix3d α :=
  match caseNumber with
  | 0 =>
    ⟨ 1,  0,  0,
      0,  1,  0,
      0,  0,  1⟩
  | 1 =>
    ⟨ 1,  0,  0,
      0,  1,  0,
      0,  0, -1⟩
  | 2 =>
    ⟨ 1,  0,  0,
      0, -1,  0,
      0,  0,  1⟩
  | 3 =>
    ⟨ 1,  0,  0,
      0, -1,  0,
      0,  0, -1⟩
  | 4 =>
    ⟨-1,  0,  0,
      0,  1,  0,
      0,  0,  1⟩
  | 5 =>
    ⟨-1,  0,  0,
      0,  1,  0,
      0,  0, -1⟩
  | 6 =>
    ⟨-1,  0,  0,
      0, -1,  0,
      0,  0,  1⟩
  | 7 =>
    ⟨-1,  0,  0,
      0, -1,  0,
      0,  0, -1⟩
  | 8 =>
    ⟨ 1,  0,  0,
      0,  0,  1,
      0,  1,  0⟩
  | 9 =>
    ⟨ 1,  0,  0,
      0,  0, -1,
      0,  1,  0⟩
  | 10 =>
    ⟨ 1,  0,  0,
      0,  0,  1,
      0, -1,  0⟩
  | 11 =>
    ⟨ 1,  0,  0,
      0,  0, -1,
      0, -1,  0⟩
  | 12 =>
    ⟨-1,  0,  0,
      0,  0,  1,
      0,  1,  0⟩
  | 13 =>
    ⟨-1,  0,  0,
      0,  0, -1,
      0,  1,  0⟩
  | 14 =>
    ⟨-1,  0,  0,
      0,  0,  1,
      0, -1,  0⟩
  | 15 =>
    ⟨-1,  0,  0,
      0,  0, -1,
      0, -1,  0⟩
  | 16 =>
    ⟨ 0,  1,  0,
      1,  0,  0,
      0,  0,  1⟩
  | 17 =>
    ⟨ 0,  1,  0,
      1,  0,  0,
      0,  0, -1⟩
  | 18 =>
    ⟨ 0, -1,  0,
      1,  0,  0,
      0,  0,  1⟩
  | 19 =>
    ⟨ 0, -1,  0,
      1,  0,  0,
      0,  0, -1⟩
  | 20 =>
    ⟨ 0,  1,  0,
     -1,  0,  0,
      0,  0,  1⟩
  | 21 =>
    ⟨ 0,  1,  0,
     -1,  0,  0,
      0,  0, -1⟩
  | 22 =>
    ⟨ 0, -1,  0,
     -1,  0,  0,
      0,  0,  1⟩
  | 23 =>
    ⟨ 0, -1,  0,
     -1,  0,  0,
      0,  0, -1⟩
  | 24 =>
    ⟨ 0,  0,  1,
      1,  0,  0,
      0,  1,  0⟩
  | 25 =>
    ⟨ 0,  0, -1,
      1,  0,  0,
      0,  1,  0⟩
  | 26 =>
    ⟨ 0,  0,  1,
      1,  0,  0,
      0, -1,  0⟩
  | 27 =>
    ⟨ 0,  0, -1,
      1,  0,  0,
      0, -1,  0⟩
  | 28 =>
    ⟨ 0,  0,  1,
     -1,  0,  0,
      0,  1,  0⟩
  | 29 =>
    ⟨ 0,  0, -1,
     -1,  0,  0,
      0,  1,  0⟩
  | 30 =>
    ⟨ 0,  0,  1,
     -1,  0,  0,
      0, -1,  0⟩
  | 31 =>
    ⟨ 0,  0, -1,
     -1,  0,  0,
      0, -1,  0⟩
  | 32 =>
    ⟨ 0,  1,  0,
      0,  0,  1,
      1,  0,  0⟩
  | 33 =>
    ⟨ 0,  1,  0,
      0,  0, -1,
      1,  0,  0⟩
  | 34 =>
    ⟨ 0, -1,  0,
      0,  0,  1,
      1,  0,  0⟩
  | 35 =>
    ⟨ 0, -1,  0,
      0,  0, -1,
      1,  0,  0⟩
  | 36 =>
    ⟨ 0,  1,  0,
      0,  0,  1,
     -1,  0,  0⟩
  | 37 =>
    ⟨ 0,  1,  0,
      0,  0, -1,
     -1,  0,  0⟩
  | 38 =>
    ⟨ 0, -1,  0,
      0,  0,  1,
     -1,  0,  0⟩
  | 39 =>
    ⟨ 0, -1,  0,
      0,  0, -1,
     -1,  0,  0⟩
  | 40 =>
    ⟨ 0,  0,  1,
      0,  1,  0,
      1,  0,  0⟩
  | 41 =>
    ⟨ 0,  0, -1,
      0,  1,  0,
      1,  0,  0⟩
  | 42 =>
    ⟨ 0,  0,  1,
      0, -1,  0,
      1,  0,  0⟩
  | 43 =>
    ⟨ 0,  0, -1,
      0, -1,  0,
      1,  0,  0⟩
  | 44 =>
    ⟨ 0,  0,  1,
      0,  1,  0,
     -1,  0,  0⟩
  | 45 =>
    ⟨ 0,  0, -1,
      0,  1,  0,
     -1,  0,  0⟩
  | 46 =>
    ⟨ 0,  0,  1,
      0, -1,  0,
     -1,  0,  0⟩
  | 47 =>
    ⟨ 0,  0, -1,
      0, -1,  0,
     -1,  0,  0⟩
  | _ => m

/-- Source: `quatCob`.  The fourth reference (`qw`) is unnamed in the source and never
read or written. -/
def quatCob {α : Type} [Neg α] (caseNumber : Int) (q : Quat4d α) : Quat4d α :=
  match caseNumber with
  | 0 => ⟨q.w,  q.x,  q.y,  q.z⟩
  | 1 => ⟨q.w, -q.x, -q.y,  q.z⟩
  | 2 => ⟨q.w, -q.x,  q.y, -q.z⟩
  | 3 => ⟨q.w,  q.x, -q.y, -q.z⟩
  | 4 => ⟨q.w,  q.x, -q.y, -q.z⟩
  | 5 => ⟨q.w, -q.x,  q.y, -q.z⟩
  | 6 => ⟨q.w, -q.x, -q.y,  q.z⟩
  | 7 => ⟨q.w,  q.x,  q.y,  q.z⟩
  | 8 => ⟨q.w, -q.x, -q.z, -q.y⟩
  | 9 => ⟨q.w,  q.x, -q.z,  q.y⟩
  | 10 => ⟨q.w,  q.x,  q.z, -q.y⟩
  | 11 => ⟨q.w, -q.x,  q.z,  q.y⟩
  | 12 => ⟨q.w, -q.x,  q.z,  q.y⟩
  | 13 => ⟨q.w,  q.x,  q.z, -q.y⟩
  | 14 => ⟨q.w,  q.x, -q.z,  q.y⟩
  | 15 => ⟨q.w, -q.x, -q.z, -q.y⟩
  | 16 => ⟨q.w, -q.y, -q.x, -q.z⟩
  | 17 => ⟨q.w,  q.y,  q.x, -q.z⟩
  | 18 => ⟨q.w, -q.y,  q.x,  q.z⟩
  | 19 => ⟨q.w,  q.y, -q.x,  q.z⟩
  | 20 => ⟨q.w,  q.y, -q.x,  q.z⟩
  | 21 => ⟨q.w, -q.y,  q.x,  q.z⟩
  | 22 => ⟨q.w,  q.y,  q.x, -q.z⟩
  | 23 => ⟨q.w, -q.y, -q.x, -q.z⟩
  | 24 => ⟨q.w,  q.z,  q.x,  q.y⟩
  | 25 => ⟨q.w,  q.z, -q.x, -q.y⟩
  | 26 => ⟨q.w, -q.z, -q.x,  q.y⟩
  | 27 => ⟨q.w, -q.z,  q.x, -q.y⟩
  | 28 => ⟨q.w, -q.z,  q.x, -q.y⟩
  | 29 => ⟨q.w, -q.z, -q.x,  q.y⟩
  | 30 => ⟨q.w,  q.z, -q.x, -q.y⟩
  | 31 => ⟨q.w,  q.z,  q.x,  q.y⟩
  | 32 => ⟨q.w,  q.y,  q.z,  q.x⟩
  | 33 => ⟨q.w, -q.y,  q.z, -q.x⟩
  | 34 => ⟨q.w,  q.y, -q.z, -q.x⟩
  | 35 => ⟨q.w, -q.y, -q.z,  q.x⟩
  | 36 => ⟨q.w, -q.y, -q.z,  q.x⟩
  | 37 => ⟨q.w,  q.y, -q.z, -q.x⟩
  | 38 => ⟨q.w, -q.y,  q.z, -q.x⟩
  | 39 => ⟨q.w,  q.y,  q.z,  q.x⟩
  | 40 => ⟨q.w, -q.z, -q.y, -q.x⟩
  | 41 => ⟨q.w, -q.z,  q.y,  q.x⟩
  | 42 => ⟨q.w,  q.z, -q.y,  q.x⟩
  | 43 => ⟨q.w,  q.z,  q.y, -q.x⟩
  | 44 => ⟨q.w,  q.z,  q.y, -q.x⟩
  | 45 => ⟨q.w,  q.z, -q.y,  q.x⟩
  | 46 => ⟨q.w, -q.z,  q.y,  q.x⟩
  | 47 => ⟨q.w, -q.z, -q.y, -q.x⟩
  | _ => q

/-- Source: `vectorCob`. -/
def vectorCob {α : Type} [Neg α] (caseNumber : Int) (v : Vector3d α) : Vector3d α :=
  match caseNumber with
  | 0 => ⟨ v.x,  v.y,  v.z⟩
  | 1 => ⟨ v.x,  v.y, -v.z⟩
  | 2 => ⟨ v.x, -v.y,  v.z⟩
  | 3 => ⟨ v.x, -v.y, -v.z⟩
  | 4 => ⟨-v.x,  v.y,  v.z⟩
  | 5 => ⟨-v.x,  v.y, -v.z⟩
  | 6 => ⟨-v.x, -v.y,  v.z⟩
  | 7 => ⟨-v.x, -v.y, -v.z⟩
  | 8 => ⟨ v.x,  v.z,  v.y⟩
  | 9 => ⟨ v.x, -v.z,  v.y⟩
  | 10 => ⟨ v.x,  v.z, -v.y⟩
  | 11 => ⟨ v.x, -v.z, -v.y⟩
  | 12 => ⟨-v.x,  v.z,  v.y⟩
  | 13 => ⟨-v.x, -v.z,  v.y⟩
  | 14 => ⟨-v.x,  v.z, -v.y⟩
  | 15 => ⟨-v.x, -v.z, -v.y⟩
  | 16 => ⟨ v.y,  v.x,  v.z⟩
  | 17 => ⟨ v.y,  v.x, -v.z⟩
  | 18 => ⟨-v.y,  v.x,  v.z⟩
  | 19 => ⟨-v.y,  v.x, -v.z⟩
  | 20 => ⟨ v.y, -v.x,  v.z⟩
  | 21 => ⟨ v.y, -v.x, -v.z⟩
  | 22 => ⟨-v.y, -v.x,  v.z⟩
  | 23 => ⟨-v.y, -v.x, -v.z⟩
  | 24 => ⟨ v.z,  v.x,  v.y⟩
  | 25 => ⟨-v.z,  v.x,  v.y⟩
  | 26 => ⟨ v.z,  v.x, -v.y⟩
  | 27 => ⟨-v.z,  v.x, -v.y⟩
  | 28 => ⟨ v.z, -v.x,  v.y⟩
  | 29 => ⟨-v.z, -v.x,  v.y⟩
  | 30 => ⟨ v.z, -v.x, -v.y⟩
  | 31 => ⟨-v.z, -v.x, -v.y⟩
  | 32 => ⟨ v.y,  v.z,  v.x⟩
  | 33 => ⟨ v.y, -v.z,  v.x⟩
  | 34 => ⟨-v.y,  v.z,  v.x⟩
  | 35 => ⟨-v.y, -v.z,  v.x⟩
  | 36 => ⟨ v.y,  v.z, -v.x⟩
  | 37 => ⟨ v.y, -v.z, -v.x⟩
  | 38 => ⟨-v.y,  v.z, -v.x⟩
  | 39 => ⟨-v.y, -v.z, -v.x⟩
  | 40 => ⟨ v.z,  v.y,  v.x⟩
  | 41 => ⟨-v.z,  v.y,  v.x⟩
  | 42 => ⟨ v.z, -v.y,  v.x⟩
  | 43 => ⟨-v.z, -v.y,  v.x⟩
  | 44 => ⟨ v.z,  v.y, -v.x⟩
  | 45 => ⟨-v.z,  v.y, -v.x⟩
  | 46 => ⟨ v.z, -v.y, -v.x⟩
  | 47 => ⟨-v.z, -v.y, -v.x⟩
  | _ => v

/-! ## Euler angles (`changeOfBasis.cpp`) -/

/-- The three angles that the Euler functions update through references. -/
structure YawPitchRoll (α : Type) where
  yaw : α
  pitch : α
  roll : α
deriving DecidableEq

/-- Source: `getYawPitchRollRotationOrderFromAxisFrame`. -/
def getYawPitchRollRotationOrderFromAxisFrame {α : Type} [Neg α] (axisFrame : triple)
    (e : YawPitchRoll α) : YawPitchRoll α :=
  if matchDirection UP axisFrame.a then
    let e := if UP != axisFrame.a then { e with pitch := -e.pitch, roll := -e.roll } else e
    if matchDirection RIGHT axisFrame.b then
      let e := if RIGHT != axisFrame.b then { e with yaw := -e.yaw, roll := -e.roll } else e
      let e := if FORWARD != axisFrame.c then { e with yaw := -e.yaw, pitch := -e.pitch } else e
      e
    else
      let e := if RIGHT != axisFrame.c then { e with yaw := -e.yaw, roll := -e.roll } else e
      let e := if FORWARD != axisFrame.b then { e with yaw := -e.yaw, pitch := -e.pitch } else e
      e
  else if matchDirection UP axisFrame.b then
    let e := if UP != axisFrame.b then { e with pitch := -e.pitch, roll := -e.roll } else e
    if matchDirection RIGHT axisFrame.a then
      let e := if RIGHT != axisFrame.a then { e with yaw := -e.yaw, roll := -e.roll } else e
      let e := if FORWARD != axisFrame.c then { e with yaw := -e.yaw, pitch := -e.pitch } else e
      e
    else
      let e := if RIGHT != axisFrame.c then { e with yaw := -e.yaw, roll := -e.roll } else e
      let e := if FORWARD != axisFrame.a then { e with yaw := -e.yaw, pitch := -e.pitch } else e
      e
  else
    let e := if UP != axisFrame.c then { e with pitch := -e.pitch, roll := -e.roll } else e
    if matchDirection RIGHT axisFrame.a then
      let e := if RIGHT != axisFrame.a then { e with yaw := -e.yaw, roll := -e.roll } else e
      let e := if FORWARD != axisFrame.b then { e with yaw := -e.yaw, pitch := -e.pitch } else e
      e
    else
      let e := if RIGHT != axisFrame.b then { e with yaw := -e.yaw, roll := -e.roll } else e
      let e := if FORWARD != axisFrame.a then { e with yaw := -e.yaw, pitch := -e.pitch } else e
      e

/-- Source: `eulerCob(int eulerCaseNumber, ...)`. -/
def eulerCob {α : Type} [Neg α] (eulerCaseNumber : Int) (e : YawPitchRoll α) :
    YawPitchRoll α :=
  let e := if Int.land eulerCaseNumber 4 != 0 then { e with yaw := -e.yaw } else e
  let e := if Int.land eulerCaseNumber 2 != 0 then { e with pitch := -e.pitch } else e
  let e := if Int.land eulerCaseNumber 1 != 0 then { e with roll := -e.roll } else e
  e

/-- Source: `eulerCob(const triple &fromFrame, const triple &toFrame, ...)`. -/
def eulerCobFrames {α : Type} [Neg α] (fromFrame toFrame : triple) (e : YawPitchRoll α) :
    YawPitchRoll α :=
  let newFromFrame : triple :=
    ⟨Int.land fromFrame.a 3, Int.land fromFrame.b 3, Int.land fromFrame.c 3⟩
  let newToFrame : triple :=
    ⟨Int.land toFrame.a 3, Int.land toFrame.b 3, Int.land toFrame.c 3⟩
  let e := getYawPitchRollRotationOrderFromAxisFrame fromFrame e
  let e := getYawPitchRollRotationOrderFromAxisFrame toFrame e
  let p := getCaseNumber newFromFrame newToFrame >>> 3
  if p == 1 || p == 2 || p == 5 then
    ⟨-e.yaw, -e.pitch, -e.roll⟩
  else
    e

/-- Source: `getEulerCaseNumber`.  The three sign variables are doubles that only ever hold
`1.0` or `-1.0`; they are taken in `ℚ`, where both are exact. -/
def getEulerCaseNumber (fromFrame toFrame : triple) : Int :=
  let eulerCaseNumber : Int := 0
  let signs : YawPitchRoll ℚ := eulerCobFrames fromFrame toFrame ⟨1, 1, 1⟩
  let eulerCaseNumber :=
    if signs.yaw < 0 then Int.lor eulerCaseNumber 4 else eulerCaseNumber
  let eulerCaseNumber :=
    if signs.pitch < 0 then Int.lor eulerCaseNumber 2 else eulerCaseNumber
  let eulerCaseNumber :=
    if signs.roll < 0 then Int.lor eulerCaseNumber 1 else eulerCaseNumber
  eulerCaseNumber

/-! ## The test math library (`Math.cpp`) -/

/-- Source: `ColumnMatrix3d::operator*`. -/
def ColumnMatrix3d.mul {α : Type} [Add α] [Mul α] (m a : ColumnMatrix3d α) :
    ColumnMatrix3d α :=
  ⟨m.m00 * a.m00 + m.m01 * a.m10 + m.m02 * a.m20,
   m.m00 * a.m01 + m.m01 * a.m11 + m.m02 * a.m21,
   m.m00 * a.m02 + m.m01 * a.m12 + m.m02 * a.m22,
   m.m10 * a.m00 + m.m11 * a.m10 + m.m12 * a.m20,
   m.m10 * a.m01 + m.m11 * a.m11 + m.m12 * a.m21,
   m.m10 * a.m02 + m.m11 * a.m12 + m.m12 * a.m22,
   m.m20 * a.m00 + m.m21 * a.m10 + m.m22 * a.m20,
   m.m20 * a.m01 + m.m21 * a.m11 + m.m22 * a.m21,
   m.m20 * a.m02 + m.m21 * a.m12 + m.m22 * a.m22⟩

/-- Source: `ColumnMatrix3d::transpose`. -/
def ColumnMatrix3d.transpose {α : Type} (m : ColumnMatrix3d α) : ColumnMatrix3d α :=
  ⟨m.m00, m.m10, m.m20,
   m.m01, m.m11, m.m21,
   m.m02, m.m12, m.m22⟩

/-- Source: `ColumnMatrix3d::identity`. -/
def ColumnMatrix3d.identity {α : Type} [Zero α] [One α] : ColumnMatrix3d α :=
  ⟨1, 0, 0,
   0, 1, 0,
   0, 0, 1⟩

/-- Source: `ColumnMatrix3d::fromRotationX`, given `c = cos(_xradians)` and
`s = sin(_xradians)`. -/
def ColumnMatrix3d.fromRotationX {α : Type} [Zero α] [One α] [Neg α] (c s : α) :
    ColumnMatrix3d α :=
  ⟨1, 0, 0,
   0, c, -s,
   0, s, c⟩

/-- Source: `ColumnMatrix3d::fromRotationY`, given `c = cos(_yradians)` and
`s = sin(_yradians)`. -/
def ColumnMatrix3d.fromRotationY {α : Type} [Zero α] [One α] [Neg α] (c s : α) :
    ColumnMatrix3d α :=
  ⟨c, 0, s,
   0, 1, 0,
   -s, 0, c⟩

/-- Source: `ColumnMatrix3d::fromRotationZ`, given `c = cos(_zradians)` and
`s = sin(_zradians)`. -/
def ColumnMatrix3d.fromRotationZ {α : Type} [Zero α] [One α] [Neg α] (c s : α) :
    ColumnMatrix3d α :=
  ⟨c, -s, 0,
   s, c, 0,
   0, 0, 1⟩

/-- Source: `operator *( ColumnMatrix3d const &a, Vector3d const &v )`. -/
def ColumnMatrix3d.mulVec {α : Type} [Add α] [Mul α] (a : ColumnMatrix3d α)
    (v : Vector3d α) : Vector3d α :=
  ⟨a.m00 * v.x + a.m01 * v.y + a.m02 * v.z,
   a.m10 * v.x + a.m11 * v.y + a.m12 * v.z,
   a.m20 * v.x + a.m21 * v.y + a.m22 * v.z⟩

/-- Source: `quat4dToColumnMatrix3d`. -/
def quat4dToColumnMatrix3d {α : Type} [CommRing α] (q : Quat4d α) : ColumnMatrix3d α :=
  ⟨2 * q.w * q.w - 1 + 2 * q.x * q.x, 2 * (q.x * q.y - q.w * q.z), 2 * (q.x * q.z + q.w * q.y),
   2 * (q.x * q.y + q.w * q.z), 2 * q.w * q.w - 1 + 2 * q.y * q.y, 2 * (q.y * q.z - q.w * q.x),
   2 * (q.x * q.z - q.w * q.y), 2 * (q.y * q.z + q.w * q.x), 2 * q.w * q.w - 1 + 2 * q.z * q.z⟩

/-- Source: the array `allFrames` of `FullChecks.cpp`, in the order of the source. -/
def allFrames : List triple :=
  [
   ⟨FORWARD, RIGHT, UP⟩, ⟨FORWARD, RIGHT, DOWN⟩, ⟨FORWARD, UP, RIGHT⟩,
   ⟨FORWARD, UP, LEFT⟩, ⟨FORWARD, LEFT, UP⟩, ⟨FORWARD, LEFT, DOWN⟩,
   ⟨FORWARD, DOWN, RIGHT⟩, ⟨FORWARD, DOWN, LEFT⟩, ⟨RIGHT, FORWARD, UP⟩,
   ⟨RIGHT, FORWARD, DOWN⟩, ⟨RIGHT, UP, FORWARD⟩, ⟨RIGHT, UP, BACK⟩,
   ⟨RIGHT, BACK, UP⟩, ⟨RIGHT, BACK, DOWN⟩, ⟨RIGHT, DOWN, FORWARD⟩,
   ⟨RIGHT, DOWN, BACK⟩, ⟨UP, FORWARD, RIGHT⟩, ⟨UP, FORWARD, LEFT⟩,
   ⟨UP, RIGHT, FORWARD⟩, ⟨UP, RIGHT, BACK⟩, ⟨UP, BACK, RIGHT⟩,
   ⟨UP, BACK, LEFT⟩, ⟨UP, LEFT, FORWARD⟩, ⟨UP, LEFT, BACK⟩,
   ⟨BACK, RIGHT, UP⟩, ⟨BACK, RIGHT, DOWN⟩, ⟨BACK, UP, RIGHT⟩,
   ⟨BACK, UP, LEFT⟩, ⟨BACK, LEFT, UP⟩, ⟨BACK, LEFT, DOWN⟩,
   ⟨BACK, DOWN, RIGHT⟩, ⟨BACK, DOWN, LEFT⟩, ⟨LEFT, FORWARD, UP⟩,
   ⟨LEFT, FORWARD, DOWN⟩, ⟨LEFT, UP, FORWARD⟩, ⟨LEFT, UP, BACK⟩,
   ⟨LEFT, BACK, UP⟩, ⟨LEFT, BACK, DOWN⟩, ⟨LEFT, DOWN, FORWARD⟩,
   ⟨LEFT, DOWN, BACK⟩, ⟨DOWN, FORWARD, RIGHT⟩, ⟨DOWN, FORWARD, LEFT⟩,
   ⟨DOWN, RIGHT, FORWARD⟩, ⟨DOWN, RIGHT, BACK⟩, ⟨DOWN, BACK, RIGHT⟩,
   ⟨DOWN, BACK, LEFT⟩, ⟨DOWN, LEFT, FORWARD⟩, ⟨DOWN, LEFT, BACK⟩
  ]

/-- Source: `ColumnMatrix3d::determinant`. -/
def ColumnMatrix3d.determinant {α : Type} [Add α] [Sub α] [Mul α] (m : ColumnMatrix3d α) : α :=
  let c0 := m.m11 * m.m22 - m.m21 * m.m12
  let c1 := m.m10 * m.m22 - m.m20 * m.m12
  let c2 := m.m10 * m.m21 - m.m20 * m.m11
  m.m00 * c0 - m.m01 * c1 + m.m02 * c2

/-- Source: `Vector3d::operator*( double f )`. -/
def Vector3d.scale {α : Type} [Mul α] (v : Vector3d α) (f : α) : Vector3d α :=
  ⟨v.x * f, v.y * f, v.z * f⟩

/-! ## Vocabulary of the specification -/

/-- One of the six axis directions of `changeOfBasis.h`. -/
abbrev isDirection (d : Int) : Prop :=
  d = FORWARD ∨ d = RIGHT ∨ d = UP ∨ d = BACK ∨ d = LEFT ∨ d = DOWN

/-- The unsigned axis of a direction: `d & 3`, shared by a direction and its opposite. -/
def unsignedAxis (d : Int) : Int := Int.land d 3

/-- A well-formed frame: three directions whose unsigned axes are pairwise distinct. -/
abbrev WellFormed (f : triple) : Prop :=
  isDirection f.a ∧ isDirection f.b ∧ isDirection f.c ∧
  unsignedAxis f.a ≠ unsignedAxis f.b ∧ unsignedAxis f.a ≠ unsignedAxis f.c ∧
  unsignedAxis f.b ≠ unsignedAxis f.c

/-- Two directions that point opposite ways along one physical axis. -/
abbrev isOpposite (d1 d2 : Int) : Prop :=
  (d1 = FORWARD ∧ d2 = BACK) ∨ (d1 = BACK ∧ d2 = FORWARD) ∨
  (d1 = RIGHT ∧ d2 = LEFT) ∨ (d1 = LEFT ∧ d2 = RIGHT) ∨
  (d1 = UP ∧ d2 = DOWN) ∨ (d1 = DOWN ∧ d2 = UP)

/-- The entry of a change-of-basis matrix for one axis of the target frame and one axis of
the source frame: `+1` for the same direction, `-1` for opposite directions, `0` otherwise. -/
def axisCoefficient (toAxis fromAxis : Int) : Int :=
  if toAxis = fromAxis then 1 else if isOpposite toAxis fromAxis then -1 else 0

/-- The `i`-th axis of a frame (`a`, `b`, `c` for 0, 1, 2). -/
def triple.axis (f : triple) : Fin 3 → Int
  | 0 => f.a
  | 1 => f.b
  | 2 => f.c

/-- The entry in row `i`, column `j`. -/
def ColumnMatrix3d.entry {α : Type} (m : ColumnMatrix3d α) : Fin 3 → Fin 3 → α
  | 0, 0 => m.m00
  | 0, 1 => m.m01
  | 0, 2 => m.m02
  | 1, 0 => m.m10
  | 1, 1 => m.m11
  | 1, 2 => m.m12
  | 2, 0 => m.m20
  | 2, 1 => m.m21
  | 2, 2 => m.m22

/-- Entrywise image of a matrix. -/
def ColumnMatrix3d.map {α β : Type} (φ : α → β) (m : ColumnMatrix3d α) : ColumnMatrix3d β :=
  ⟨φ m.m00, φ m.m01, φ m.m02,
   φ m.m10, φ m.m11, φ m.m12,
   φ m.m20, φ m.m21, φ m.m22⟩

/-- The change-of-basis matrix the specification describes for a pair of frames: row `i`,
column `j` relates the `i`-th axis of `toFrame` to the `j`-th axis of `fromFrame`. -/
def frameMatrix (fromFrame toFrame : triple) : ColumnMatrix3d Int :=
  ⟨axisCoefficient toFrame.a fromFrame.a, axisCoefficient toFrame.a fromFrame.b,
   axisCoefficient toFrame.a fromFrame.c,
   axisCoefficient toFrame.b fromFrame.a, axisCoefficient toFrame.b fromFrame.b,
   axisCoefficient toFrame.b fromFrame.c,
   axisCoefficient toFrame.c fromFrame.a, axisCoefficient toFrame.c fromFrame.b,
   axisCoefficient toFrame.c fromFrame.c⟩

/-- The integer matrix of a case number (the nine out-parameters start at zero). -/
def caseMatrix (caseNumber : Int) : ColumnMatrix3d Int :=
  getAtoBMatrix caseNumber ⟨0, 0, 0, 0, 0, 0, 0, 0, 0⟩

/-- The vector part `(x, y, z)` of a quaternion. -/
def Quat4d.vec {α : Type} (q : Quat4d α) : Vector3d α := ⟨q.x, q.y, q.z⟩

/-- The frame `(FORWARD, RIGHT, UP)` read against itself: the matrix that takes the
reference frame `Unreal3Frame` to `f`. -/
def referenceMatrix (f : triple) : ColumnMatrix3d Int := frameMatrix Unreal3Frame f

/-- The quaternion with scalar part `w` and vector part `v`. -/
def Quat4d.ofVec {α : Type} (w : α) (v : Vector3d α) : Quat4d α := ⟨w, v.x, v.y, v.z⟩

/-! ## Helpers for exhaustive checks over the 48 frames -/

/-- Hands `k` the numeral that `n` evaluates to, so that `k` inspects a value and not an
unevaluated expression. -/
def withNat {β : Type} (n : Nat) (k : Nat → β) : β :=
  match n with
  | 0 => k 0
  | m + 1 => k (m + 1)

/-- Hands `k` the integer that `c` evaluates to. -/
def withInt {β : Type} (c : Int) (k : Int → β) : β :=
  match c with
  | Int.ofNat n => withNat n fun m => k (Int.ofNat m)
  | Int.negSucc n => withNat n fun m => k (Int.negSucc m)

/-- The coefficient of two directions read off the way `getCaseNumber` compares them. -/
def matchCoefficient (toAxis fromAxis : Int) : Int :=
  if toAxis = fromAxis then 1 else if matchDirection fromAxis toAxis then -1 else 0

/-- For one pair of frames: the case number is in range and the nine entries of its matrix
are the coefficients of the axes. -/
def pairCheck (f g : triple) : Bool :=
  withInt (getCaseNumber f g) fun c =>
    decide (0 ≤ c) && decide (c < 48) &&
    match caseMatrix c with
    | ⟨p00, p01, p02, p10, p11, p12, p20, p21, p22⟩ =>
      p00 == matchCoefficient g.a f.a && p01 == matchCoefficient g.a f.b &&
      p02 == matchCoefficient g.a f.c &&
      p10 == matchCoefficient g.b f.a && p11 == matchCoefficient g.b f.b &&
      p12 == matchCoefficient g.b f.c &&
      p20 == matchCoefficient g.c f.a && p21 == matchCoefficient g.c f.b &&
      p22 == matchCoefficient g.c f.c

/-! ## Vocabulary for the Euler sign rule -/

/-- The three Euler angles of `eulerCob`. -/
inductive EulerAngle where
  | yaw
  | pitch
  | roll
deriving DecidableEq, Fintype

/-- The canonical direction an angle turns about: yaw about `UP`, pitch about `RIGHT`,
roll about `FORWARD` (`changeOfBasis.h`). -/
def EulerAngle.direction : EulerAngle → Int
  | .yaw => UP
  | .pitch => RIGHT
  | .roll => FORWARD

/-- The bit of the Euler case number that flips an angle (`eulerCob`, `getEulerCaseNumber`). -/
def EulerAngle.mask : EulerAngle → Int
  | .yaw => 4
  | .pitch => 2
  | .roll => 1

/-- The elementary rotation about coordinate axis `i` with cosine `c` and sine `s`
(`fromRotationX`, `fromRotationY`, `fromRotationZ` for 0, 1, 2). -/
def elementaryRotation {α : Type} [Zero α] [One α] [Neg α] (i : Fin 3) (c s : α) :
    ColumnMatrix3d α :=
  match i with
  | 0 => ColumnMatrix3d.fromRotationX c s
  | 1 => ColumnMatrix3d.fromRotationY c s
  | 2 => ColumnMatrix3d.fromRotationZ c s

/-- What `matrixCob3x3 c` does to the elementary rotation about axis `i`, read off the
integer rotation with cosine 2 and sine 3: the axis of the result, and whether the sine
changed sign. -/
def rotationImage (c : Int) (i : Fin 3) : Fin 3 × Bool :=
  match matrixCob3x3 c (elementaryRotation i (2 : Int) 3) with
  | ⟨r00, _, r02, r10, r11, _, _, r21, _⟩ =>
    if r00 = 1 then (0, r21 == -3)
    else if r11 = 1 then (1, r02 == -3)
    else (2, r10 == -3)

/-- The position (0, 1, 2 for `a`, `b`, `c`) of the axis of `f` that lies along the
physical axis of direction `d`; for a well-formed frame exactly one does. -/
def axisPosition (f : triple) (d : Int) : Fin 3 :=
  if matchDirection d f.a then 0 else if matchDirection d f.b then 1 else 2

/-- Hands `k` the index that `i` evaluates to. -/
def withFin3 {β : Type} (i : Fin 3) (k : Fin 3 → β) : β :=
  match i with
  | 0 => k 0
  | 1 => k 1
  | 2 => k 2

/-- For one pair of frames and one angle: `matrixCob3x3` takes the axis of the angle in
`f` to its axis in `g`, and flips the sine exactly when the Euler case number `e` has the
bit of the angle. -/
def eulerAngleCheck (c e : Int) (f g : triple) (X : EulerAngle) : Bool :=
  withFin3 (axisPosition f X.direction) fun i =>
  withFin3 (axisPosition g X.direction) fun j =>
    rotationImage c i == (j, Int.land e X.mask != 0)

/-- For one pair of frames: `eulerAngleCheck` for the three angles. -/
def eulerPairCheck (f g : triple) : Bool :=
  withInt (getCaseNumber f g) fun c =>
  withInt (getEulerCaseNumber f g) fun e =>
    eulerAngleCheck c e f g EulerAngle.yaw && eulerAngleCheck c e f g EulerAngle.pitch &&
    eulerAngleCheck c e f g EulerAngle.roll

/-! ## Vocabulary for the algebraic properties -/

/-- Entrywise sum of two matrices. -/
def ColumnMatrix3d.add {α : Type} [Add α] (a b : ColumnMatrix3d α) : ColumnMatrix3d α :=
  ⟨a.m00 + b.m00, a.m01 + b.m01, a.m02 + b.m02,
   a.m10 + b.m10, a.m11 + b.m11, a.m12 + b.m12,
   a.m20 + b.m20, a.m21 + b.m21, a.m22 + b.m22⟩

/-- Exactly one of three numbers is not zero. -/
abbrev exactlyOneNonzero {α : Type} [Zero α] (a b c : α) : Prop :=
  (a ≠ 0 ∧ b = 0 ∧ c = 0) ∨ (a = 0 ∧ b ≠ 0 ∧ c = 0) ∨ (a = 0 ∧ b = 0 ∧ c ≠ 0)

/-- A signed permutation matrix: every entry is `-1`, `0` or `+1`, and every row and every
column has exactly one entry that is not zero. -/
abbrev isSignedPermutation {α : Type} [Zero α] [One α] [Neg α] (m : ColumnMatrix3d α) : Prop :=
  (∀ i j : Fin 3, m.entry i j = -1 ∨ m.entry i j = 0 ∨ m.entry i j = 1) ∧
  (∀ i : Fin 3, exactlyOneNonzero (m.entry i 0) (m.entry i 1) (m.entry i 2)) ∧
  (∀ j : Fin 3, exactlyOneNonzero (m.entry 0 j) (m.entry 1 j) (m.entry 2 j))

/-- The case number read back from an integer matrix, by the convention of the comment on
`getCaseNumber`: the permutation index from the rows that the first two columns occupy, and
one sign bit per column (0x04, 0x02, 0x01 for columns 0, 1, 2) set when the entry of the
column is negative. -/
def caseOfMatrix (m : ColumnMatrix3d Int) : Int :=
  let p : Int :=
    if m.m00 ≠ 0 then (if m.m11 ≠ 0 then 0 else 1)
    else if m.m10 ≠ 0 then (if m.m01 ≠ 0 then 2 else 3)
    else (if m.m01 ≠ 0 then 4 else 5)
  let s : Int :=
    (if m.m00 + m.m10 + m.m20 < 0 then 4 else 0) +
    (if m.m01 + m.m11 + m.m21 < 0 then 2 else 0) +
    (if m.m02 + m.m12 + m.m22 < 0 then 1 else 0)
  p * 8 + s

/-- The list of the three values an entry of a signed permutation matrix can take. -/
def signValues : List Int := [-1, 0, 1]

/-- The angles `e` with each one multiplied by the matching integer of `s`. -/
def YawPitchRoll.scaleBy {α : Type} [Mul α] [IntCast α] (s : YawPitchRoll Int)
    (e : YawPitchRoll α) : YawPitchRoll α :=
  ⟨(s.yaw : α) * e.yaw, (s.pitch : α) * e.pitch, (s.roll : α) * e.roll⟩

/-- Three integers that are each `1` or `-1`. -/
abbrev YawPitchRoll.isSigns (s : YawPitchRoll Int) : Prop :=
  (s.yaw = 1 ∨ s.yaw = -1) ∧ (s.pitch = 1 ∨ s.pitch = -1) ∧ (s.roll = 1 ∨ s.roll = -1)


/-! ## Vocabulary for the entry-level and frame-level properties -/

/-- An integer matrix with nine different positive entries, to trace where `matrixCob3x3`
takes each entry from. -/
def probeMatrix : ColumnMatrix3d Int := ⟨1, 2, 3, 4, 5, 6, 7, 8, 9⟩

/-- The position at which `probeMatrix` has the entry `n`. -/
def positionOfProbe (n : Nat) : Fin 3 × Fin 3 :=
  match n with
  | 1 => (0, 0)
  | 2 => (0, 1)
  | 3 => (0, 2)
  | 4 => (1, 0)
  | 5 => (1, 1)
  | 6 => (1, 2)
  | 7 => (2, 0)
  | 8 => (2, 1)
  | _ => (2, 2)

/-- The position of the input matrix from which `matrixCob3x3 c` fills position `q` of the
output, read off `probeMatrix`. -/
def sourcePosition (c : Int) (q : Fin 3 × Fin 3) : Fin 3 × Fin 3 :=
  positionOfProbe ((matrixCob3x3 c probeMatrix).entry q.1 q.2).natAbs

/-- Whether `matrixCob3x3 c` negates the entry it puts at position `q`, read off
`probeMatrix`. -/
def sourceNegated (c : Int) (q : Fin 3 × Fin 3) : Bool :=
  decide ((matrixCob3x3 c probeMatrix).entry q.1 q.2 < 0)

/-- The direction `d` occurs among the three axes of the frame. -/
abbrev triple.has (f : triple) (d : Int) : Prop := f.a = d ∨ f.b = d ∨ f.c = d

/-- The three flips of the rotation-order rule, one after the other: pitch and roll when
the frame has `DOWN`, yaw and roll when it has `LEFT`, yaw and pitch when it has `BACK`. -/
def axisFlips {α : Type} [Neg α] (f : triple) (e : YawPitchRoll α) : YawPitchRoll α :=
  let e := if f.has DOWN then ⟨e.yaw, -e.pitch, -e.roll⟩ else e
  let e := if f.has LEFT then ⟨-e.yaw, e.pitch, -e.roll⟩ else e
  let e := if f.has BACK then ⟨-e.yaw, -e.pitch, e.roll⟩ else e
  e

/-- The sum of the diagonal entries of a matrix. -/
def ColumnMatrix3d.trace {α : Type} [Add α] (m : ColumnMatrix3d α) : α :=
  m.m00 + m.m11 + m.m22

/-- The sign bit that `getCaseNumber` keeps for the `i`-th axis of the source frame:
`0x04` for `a`, `0x02` for `b`, `0x01` for `c`. -/
def signMask : Fin 3 → Int
  | 0 => 4
  | 1 => 2
  | 2 => 1

/-- The six axis directions. -/
def directions : List Int := [FORWARD, RIGHT, UP, BACK, LEFT, DOWN]

/-- The frame with every direction replaced by its positive counterpart, as
`eulerCob(from, to, ...)` builds it (`newFromFrame`, `newToFrame`). -/
def normalizedFrame (f : triple) : triple :=
  ⟨Int.land f.a 3, Int.land f.b 3, Int.land f.c 3⟩

/-- The six frames made of the positive directions only. -/
def normalFrames : List triple :=
  [⟨0, 1, 2⟩, ⟨0, 2, 1⟩, ⟨1, 0, 2⟩, ⟨1, 2, 0⟩, ⟨2, 0, 1⟩, ⟨2, 1, 0⟩]

/-- The test of `eulerCob(from, to, ...)` on the permutation index of two frames:
`p == 1 || p == 2 || p == 5`. -/
def oddCase (f g : triple) : Bool :=
  let p := getCaseNumber f g >>> 3
  p == 1 || p == 2 || p == 5

/-- Whether the rotation-order rule of a frame negates the given angle: yaw when exactly
one of `LEFT`, `BACK` occurs, pitch when exactly one of `DOWN`, `BACK` occurs, roll when
exactly one of `DOWN`, `LEFT` occurs. -/
def frameFlip (f : triple) : EulerAngle → Bool
  | .yaw => decide (Xor' (f.has LEFT) (f.has BACK))
  | .pitch => decide (Xor' (f.has DOWN) (f.has BACK))
  | .roll => decide (Xor' (f.has DOWN) (f.has LEFT))

/-- Whether converting Euler angles between two frames negates the given angle. -/
def pairFlip (f g : triple) (X : EulerAngle) : Bool :=
  xor (xor (frameFlip f X) (frameFlip g X)) (oddCase (normalizedFrame f) (normalizedFrame g))

/-- The Euler case number with the given three bits. -/
def eulerBits (y p r : Bool) : Int :=
  Int.lor (Int.lor (Int.lor 0 (if y then 4 else 0)) (if p then 2 else 0)) (if r then 1 else 0)

/-! ## Frames -/

theorem mem_allFrames_of_wellFormed (f : triple) (h : WellFormed f) : f ∈ allFrames := by
  obtain ⟨a, b, c⟩ := f
  obtain ⟨ha, hb, hc, hab, hac, hbc⟩ := h
  simp only [isDirection] at ha hb hc
  rcases ha with rfl | rfl | rfl | rfl | rfl | rfl <;>
  rcases hb with rfl | rfl | rfl | rfl | rfl | rfl <;>
  rcases hc with rfl | rfl | rfl | rfl | rfl | rfl <;>
  first
    | exact absurd rfl hab
    | exact absurd rfl hac
    | exact absurd rfl hbc
    | decide

theorem wellFormed_of_mem_allFrames : ∀ f ∈ allFrames, WellFormed f := by
  decide

theorem withNat_eq {β : Type} (n : Nat) (k : Nat → β) : withNat n k = k n := by
  cases n <;> rfl

theorem withInt_eq {β : Type} (c : Int) (k : Int → β) : withInt c k = k c := by
  cases c <;> simp [withInt, withNat_eq]

theorem matchCoefficient_eq (t f : Int) (ht : isDirection t) (hf : isDirection f) :
    matchCoefficient t f = axisCoefficient t f := by
  rcases ht with rfl | rfl | rfl | rfl | rfl | rfl <;>
  rcases hf with rfl | rfl | rfl | rfl | rfl | rfl <;> decide

set_option maxRecDepth 100000 in
theorem pairCheck_allFrames :
    (allFrames.all fun f => allFrames.all fun g => pairCheck f g) = true := by
  decide!

theorem caseMatrix_getCaseNumber (f g : triple) (hf : WellFormed f) (hg : WellFormed g) :
    0 ≤ getCaseNumber f g ∧ getCaseNumber f g < 48 ∧
      caseMatrix (getCaseNumber f g) = frameMatrix f g := by
  have h := pairCheck_allFrames
  rw [List.all_eq_true] at h
  have h1 := h f (mem_allFrames_of_wellFormed f hf)
  rw [List.all_eq_true] at h1
  have h2 := h1 g (mem_allFrames_of_wellFormed g hg)
  rw [pairCheck, withInt_eq] at h2
  obtain ⟨fa, fb, fc, -⟩ := hf
  obtain ⟨ga, gb, gc, -⟩ := hg
  generalize caseMatrix (getCaseNumber f g) = P at h2
  obtain ⟨p00, p01, p02, p10, p11, p12, p20, p21, p22⟩ := P
  simp only [Bool.and_eq_true, decide_eq_true_eq, beq_iff_eq, and_assoc] at h2
  obtain ⟨h0, h48, e00, e01, e02, e10, e11, e12, e20, e21, e22⟩ := h2
  refine ⟨h0, h48, ?_⟩
  simp only [frameMatrix, e00, e01, e02, e10, e11, e12, e20, e21, e22, matchCoefficient_eq,
    fa, fb, fc, ga, gb, gc]


/-! ## The 48 cases, one at a time -/

theorem ColumnMatrix3d.ext_entries {α : Type} {a b : ColumnMatrix3d α}
    (h00 : a.m00 = b.m00) (h01 : a.m01 = b.m01) (h02 : a.m02 = b.m02)
    (h10 : a.m10 = b.m10) (h11 : a.m11 = b.m11) (h12 : a.m12 = b.m12)
    (h20 : a.m20 = b.m20) (h21 : a.m21 = b.m21) (h22 : a.m22 = b.m22) : a = b := by
  cases a; cases b; simp_all

section Cases

variable {α : Type} [CommRing α]

/-- For a case number in range, `getAtoBMatrix` overwrites all nine entries: the result is
the integer matrix of the case, whatever the entries were before. -/
theorem getAtoBMatrix_eq_caseMatrix (c : Int) (h0 : 0 ≤ c) (h48 : c < 48)
    (m : ColumnMatrix3d α) :
    getAtoBMatrix c m = (caseMatrix c).map Int.cast := by
  unfold caseMatrix
  interval_cases c <;>
    (conv => lhs; whnf
     conv => rhs; arg 2; whnf
     simp only [ColumnMatrix3d.map, Int.cast_zero, Int.cast_one, Int.cast_neg])

theorem vectorCob_eq_mulVec (c : Int) (h0 : 0 ≤ c) (h48 : c < 48) (m : ColumnMatrix3d α)
    (v : Vector3d α) :
    vectorCob c v = (getAtoBMatrix c m).mulVec v := by
  interval_cases c <;>
    (conv => lhs; whnf
     conv => rhs; arg 1; whnf
     simp only [ColumnMatrix3d.mulVec, mul_zero, zero_mul, one_mul, add_zero, zero_add,
       neg_mul])

theorem matrixCob3x3_eq_conj (c : Int) (h0 : 0 ≤ c) (h48 : c < 48) (m a : ColumnMatrix3d α)
    (P : ColumnMatrix3d α) (hP : P = getAtoBMatrix c m) :
    matrixCob3x3 c a = (P.mul a).mul P.transpose := by
  interval_cases c <;>
    (conv at hP => rhs; whnf
     subst hP
     conv => lhs; whnf
     simp only [ColumnMatrix3d.mul, ColumnMatrix3d.transpose, mul_zero, zero_mul, one_mul,
       mul_one, add_zero, zero_add, neg_mul, mul_neg, neg_neg, neg_zero])

theorem quat4dToColumnMatrix3d_quatCob (c : Int) (h0 : 0 ≤ c) (h48 : c < 48) (q : Quat4d α) :
    quat4dToColumnMatrix3d (quatCob c q) = matrixCob3x3 c (quat4dToColumnMatrix3d q) := by
  interval_cases c <;>
    (conv => lhs; arg 1; whnf
     conv => rhs; whnf
     all_goals simp only [quat4dToColumnMatrix3d]
     all_goals congr 1 <;> ring)

end Cases


/-! ## Matrix algebra -/

section Algebra

variable {α : Type} [CommRing α]

theorem ColumnMatrix3d.mul_assoc (a b c : ColumnMatrix3d α) :
    (a.mul b).mul c = a.mul (b.mul c) := by
  simp only [ColumnMatrix3d.mul]
  congr 1 <;> ring

theorem ColumnMatrix3d.transpose_mul (a b : ColumnMatrix3d α) :
    (a.mul b).transpose = b.transpose.mul a.transpose := by
  simp only [ColumnMatrix3d.mul, ColumnMatrix3d.transpose]
  congr 1 <;> ring

theorem ColumnMatrix3d.identity_mul (a : ColumnMatrix3d α) :
    ColumnMatrix3d.identity.mul a = a := by
  simp [ColumnMatrix3d.mul, ColumnMatrix3d.identity]

theorem ColumnMatrix3d.mul_identity (a : ColumnMatrix3d α) :
    a.mul ColumnMatrix3d.identity = a := by
  simp [ColumnMatrix3d.mul, ColumnMatrix3d.identity]

theorem ColumnMatrix3d.mulVec_mulVec (a b : ColumnMatrix3d α) (v : Vector3d α) :
    a.mulVec (b.mulVec v) = (a.mul b).mulVec v := by
  simp only [ColumnMatrix3d.mul, ColumnMatrix3d.mulVec]
  congr 1 <;> ring

theorem ColumnMatrix3d.mulVec_scale (a : ColumnMatrix3d α) (v : Vector3d α) (f : α) :
    a.mulVec (v.scale f) = (a.mulVec v).scale f := by
  simp only [ColumnMatrix3d.mulVec, Vector3d.scale]
  congr 1 <;> ring

theorem Vector3d.scale_scale (v : Vector3d α) (f g : α) :
    (v.scale f).scale g = v.scale (g * f) := by
  simp only [Vector3d.scale]
  congr 1 <;> ring

theorem ColumnMatrix3d.determinant_mul (a b : ColumnMatrix3d α) :
    (a.mul b).determinant = a.determinant * b.determinant := by
  simp only [ColumnMatrix3d.mul, ColumnMatrix3d.determinant]
  ring

theorem ColumnMatrix3d.map_mul (a b : ColumnMatrix3d Int) :
    (a.mul b).map (Int.cast : Int → α) = (a.map Int.cast).mul (b.map Int.cast) := by
  simp only [ColumnMatrix3d.mul, ColumnMatrix3d.map]
  congr 1 <;> push_cast <;> rfl

end Algebra

/-! ## Composition of frame matrices -/

theorem axisCoefficient_reference (x y : Int) (hx : isDirection x) (hy : isDirection y) :
    axisCoefficient x y =
      axisCoefficient x FORWARD * axisCoefficient y FORWARD +
      axisCoefficient x RIGHT * axisCoefficient y RIGHT +
      axisCoefficient x UP * axisCoefficient y UP := by
  rcases hx with rfl | rfl | rfl | rfl | rfl | rfl <;>
  rcases hy with rfl | rfl | rfl | rfl | rfl | rfl <;> decide

theorem frameMatrix_eq_reference (f g : triple) (hf : WellFormed f) (hg : WellFormed g) :
    frameMatrix f g = (referenceMatrix g).mul (referenceMatrix f).transpose := by
  obtain ⟨fa, fb, fc, -⟩ := hf
  obtain ⟨ga, gb, gc, -⟩ := hg
  simp only [frameMatrix, referenceMatrix, Unreal3Frame, ColumnMatrix3d.mul,
    ColumnMatrix3d.transpose]
  congr 1 <;> apply axisCoefficient_reference <;> assumption

theorem referenceMatrix_orthogonal :
    ∀ f ∈ allFrames, (referenceMatrix f).transpose.mul (referenceMatrix f) =
      ColumnMatrix3d.identity := by
  decide

theorem frameMatrix_mul (f g h : triple) (hf : WellFormed f) (hg : WellFormed g)
    (hh : WellFormed h) :
    (frameMatrix g h).mul (frameMatrix f g) = frameMatrix f h := by
  rw [frameMatrix_eq_reference g h hg hh, frameMatrix_eq_reference f g hf hg,
    frameMatrix_eq_reference f h hf hh, ColumnMatrix3d.mul_assoc,
    ← ColumnMatrix3d.mul_assoc _ (referenceMatrix g),
    referenceMatrix_orthogonal g (mem_allFrames_of_wellFormed g hg),
    ColumnMatrix3d.identity_mul]


/-! ## The appliers as matrix actions, and their composition -/

section Composition

variable {α : Type} [CommRing α]

/-- For a case number in range the quaternion applier keeps `w` and sends the vector part
`v` to `det(P) * (P v)`, with `P` the matrix of the case. -/
theorem quatCob_eq_scale (c : Int) (h0 : 0 ≤ c) (h48 : c < 48) (m : ColumnMatrix3d α)
    (q : Quat4d α) (P : ColumnMatrix3d α) (hP : P = getAtoBMatrix c m) :
    quatCob c q = Quat4d.ofVec q.w ((P.mulVec q.vec).scale P.determinant) := by
  interval_cases c <;>
    (conv at hP => rhs; whnf
     subst hP
     conv => lhs; whnf
     simp only [Quat4d.ofVec, Quat4d.vec, Vector3d.scale, ColumnMatrix3d.mulVec,
       ColumnMatrix3d.determinant, mul_zero, zero_mul, one_mul, mul_one, add_zero, zero_add,
       sub_zero, zero_sub, neg_mul, mul_neg, neg_neg, neg_zero, sub_neg_eq_add])

theorem getAtoBMatrix_getCaseNumber_eq (f g : triple) (hf : WellFormed f) (hg : WellFormed g)
    (m : ColumnMatrix3d α) :
    getAtoBMatrix (getCaseNumber f g) m = (frameMatrix f g).map Int.cast := by
  obtain ⟨h0, h48, h⟩ := caseMatrix_getCaseNumber f g hf hg
  rw [getAtoBMatrix_eq_caseMatrix _ h0 h48, h]

theorem getAtoBMatrix_comp (f g h : triple) (hf : WellFormed f) (hg : WellFormed g)
    (hh : WellFormed h) (m1 m2 m3 : ColumnMatrix3d α) :
    (getAtoBMatrix (getCaseNumber g h) m1).mul (getAtoBMatrix (getCaseNumber f g) m2) =
      getAtoBMatrix (getCaseNumber f h) m3 := by
  rw [getAtoBMatrix_getCaseNumber_eq g h hg hh, getAtoBMatrix_getCaseNumber_eq f g hf hg,
    getAtoBMatrix_getCaseNumber_eq f h hf hh, ← ColumnMatrix3d.map_mul,
    frameMatrix_mul f g h hf hg hh]

theorem vectorCob_comp (f g h : triple) (hf : WellFormed f) (hg : WellFormed g)
    (hh : WellFormed h) (v : Vector3d α) :
    vectorCob (getCaseNumber g h) (vectorCob (getCaseNumber f g) v) =
      vectorCob (getCaseNumber f h) v := by
  obtain ⟨a0, a48, -⟩ := caseMatrix_getCaseNumber f g hf hg
  obtain ⟨b0, b48, -⟩ := caseMatrix_getCaseNumber g h hg hh
  obtain ⟨c0, c48, -⟩ := caseMatrix_getCaseNumber f h hf hh
  rw [vectorCob_eq_mulVec _ a0 a48 ColumnMatrix3d.identity,
    vectorCob_eq_mulVec _ b0 b48 ColumnMatrix3d.identity,
    vectorCob_eq_mulVec _ c0 c48 ColumnMatrix3d.identity,
    ColumnMatrix3d.mulVec_mulVec, getAtoBMatrix_comp f g h hf hg hh]

theorem matrixCob3x3_comp (f g h : triple) (hf : WellFormed f) (hg : WellFormed g)
    (hh : WellFormed h) (a : ColumnMatrix3d α) :
    matrixCob3x3 (getCaseNumber g h) (matrixCob3x3 (getCaseNumber f g) a) =
      matrixCob3x3 (getCaseNumber f h) a := by
  obtain ⟨a0, a48, -⟩ := caseMatrix_getCaseNumber f g hf hg
  obtain ⟨b0, b48, -⟩ := caseMatrix_getCaseNumber g h hg hh
  obtain ⟨c0, c48, -⟩ := caseMatrix_getCaseNumber f h hf hh
  rw [matrixCob3x3_eq_conj _ a0 a48 ColumnMatrix3d.identity a _ rfl,
    matrixCob3x3_eq_conj _ b0 b48 ColumnMatrix3d.identity _ _ rfl,
    matrixCob3x3_eq_conj _ c0 c48 ColumnMatrix3d.identity a _ rfl,
    ← getAtoBMatrix_comp f g h hf hg hh ColumnMatrix3d.identity ColumnMatrix3d.identity]
  simp only [ColumnMatrix3d.transpose_mul, ColumnMatrix3d.mul_assoc]

theorem quatCob_comp (f g h : triple) (hf : WellFormed f) (hg : WellFormed g)
    (hh : WellFormed h) (q : Quat4d α) :
    quatCob (getCaseNumber g h) (quatCob (getCaseNumber f g) q) =
      quatCob (getCaseNumber f h) q := by
  obtain ⟨a0, a48, -⟩ := caseMatrix_getCaseNumber f g hf hg
  obtain ⟨b0, b48, -⟩ := caseMatrix_getCaseNumber g h hg hh
  obtain ⟨c0, c48, -⟩ := caseMatrix_getCaseNumber f h hf hh
  rw [quatCob_eq_scale _ a0 a48 ColumnMatrix3d.identity q _ rfl,
    quatCob_eq_scale _ b0 b48 ColumnMatrix3d.identity _ _ rfl,
    quatCob_eq_scale _ c0 c48 ColumnMatrix3d.identity q _ rfl,
    ← getAtoBMatrix_comp f g h hf hg hh ColumnMatrix3d.identity ColumnMatrix3d.identity,
    ColumnMatrix3d.determinant_mul]
  have hv (w : α) (v : Vector3d α) : (Quat4d.ofVec w v).vec = v := rfl
  have hw (w : α) (v : Vector3d α) : (Quat4d.ofVec w v).w = w := rfl
  rw [hv, hw, ColumnMatrix3d.mulVec_scale, Vector3d.scale_scale,
    ColumnMatrix3d.mulVec_mulVec]

theorem getCaseNumber_self (f : triple) : getCaseNumber f f = 0 := by
  simp [getCaseNumber, matchDirection, Int.lor]

end Composition


/-! ## The Euler sign rule -/

section Euler

variable {α : Type} [CommRing α]

theorem matrixCob3x3_elementaryRotation (c : Int) (h0 : 0 ≤ c) (h48 : c < 48) (i j : Fin 3)
    (flip : Bool) (h : rotationImage c i = (j, flip)) (cs sn : α) :
    matrixCob3x3 c (elementaryRotation i cs sn) =
      elementaryRotation j cs (if flip = true then -sn else sn) := by
  interval_cases c <;> fin_cases i <;>
    (conv at h => lhs; whnf
     simp [elementaryRotation, ColumnMatrix3d.fromRotationX, ColumnMatrix3d.fromRotationY,
       ColumnMatrix3d.fromRotationZ] at h
     obtain ⟨rfl, rfl⟩ := h
     conv => lhs; whnf
     simp [elementaryRotation, ColumnMatrix3d.fromRotationX, ColumnMatrix3d.fromRotationY,
       ColumnMatrix3d.fromRotationZ])

set_option maxRecDepth 100000 in
theorem eulerPairCheck_allFrames :
    (allFrames.all fun f => allFrames.all fun g => eulerPairCheck f g) = true := by
  decide!

theorem withFin3_eq {β : Type} (i : Fin 3) (k : Fin 3 → β) : withFin3 i k = k i := by
  fin_cases i <;> rfl

theorem axisPosition_eq_of_matchDirection :
    ∀ f ∈ allFrames, ∀ X : EulerAngle, ∀ i : Fin 3,
      matchDirection X.direction (f.axis i) = true → axisPosition f X.direction = i := by
  decide

theorem matrixCob3x3_elementaryRotation_frames (f g : triple) (hf : WellFormed f)
    (hg : WellFormed g) (X : EulerAngle) (i j : Fin 3)
    (hi : matchDirection X.direction (f.axis i) = true)
    (hj : matchDirection X.direction (g.axis j) = true) (cs sn : α) :
    matrixCob3x3 (getCaseNumber f g) (elementaryRotation i cs sn) =
      elementaryRotation j cs
        (if Int.land (getEulerCaseNumber f g) X.mask ≠ 0 then -sn else sn) := by
  have hfm := mem_allFrames_of_wellFormed f hf
  have hgm := mem_allFrames_of_wellFormed g hg
  obtain ⟨h0, h48, -⟩ := caseMatrix_getCaseNumber f g hf hg
  have h := eulerPairCheck_allFrames
  rw [List.all_eq_true] at h
  have h1 := h f hfm
  rw [List.all_eq_true] at h1
  have h2 := h1 g hgm
  simp only [eulerPairCheck, withInt_eq, eulerAngleCheck, withFin3_eq, Bool.and_eq_true,
    beq_iff_eq] at h2
  have h3 : rotationImage (getCaseNumber f g) i =
      (j, Int.land (getEulerCaseNumber f g) X.mask != 0) := by
    rw [← axisPosition_eq_of_matchDirection f hfm X i hi,
      ← axisPosition_eq_of_matchDirection g hgm X j hj]
    cases X
    · exact h2.1.1
    · exact h2.1.2
    · exact h2.2
  rw [matrixCob3x3_elementaryRotation _ h0 h48 i j _ h3]
  simp

end Euler


/-! ## Out-of-range case numbers and the identity case -/

theorem quatCob_scalar {α : Type} [Neg α] (c : Int) (q : Quat4d α) :
    (quatCob c q).w = q.w ∧
      ∀ w : α, (quatCob c ⟨w, q.x, q.y, q.z⟩).vec = (quatCob c q).vec := by
  unfold quatCob
  split <;> exact ⟨rfl, fun _ => rfl⟩

theorem matrixCob3x3_zero {α : Type} [Neg α] (a : ColumnMatrix3d α) :
    matrixCob3x3 0 a = a := rfl

theorem vectorCob_zero {α : Type} [Neg α] (v : Vector3d α) : vectorCob 0 v = v := rfl

theorem quatCob_zero {α : Type} [Neg α] (q : Quat4d α) : quatCob 0 q = q := rfl

/-! ## Claims C1 to C10 -/

/-- C1: for well-formed frames, the matrix of the case number of `(fromFrame, toFrame)` has
in row `i`, column `j` the entry `+1` when the `i`-th axis of `toFrame` is the `j`-th axis of
`fromFrame`, `-1` when it is the opposite direction, and `0` otherwise. -/
theorem getAtoBMatrix_getCaseNumber_entry {α : Type} [CommRing α] (fromFrame toFrame : triple)
    (hf : WellFormed fromFrame) (ht : WellFormed toFrame) (m : ColumnMatrix3d α)
    (i j : Fin 3) :
    (getAtoBMatrix (getCaseNumber fromFrame toFrame) m).entry i j =
      ((axisCoefficient (toFrame.axis i) (fromFrame.axis j) : Int) : α) := by
  rw [getAtoBMatrix_getCaseNumber_eq fromFrame toFrame hf ht]
  fin_cases i <;> fin_cases j <;> rfl

theorem getAtoBMatrix_getCaseNumber_entry_witness :
    WellFormed ⟨RIGHT, FORWARD, UP⟩ ∧ WellFormed Unreal3Frame ∧
      (getAtoBMatrix (getCaseNumber ⟨RIGHT, FORWARD, UP⟩ Unreal3Frame)
        (ColumnMatrix3d.identity : ColumnMatrix3d Int)).entry 0 1 =
        ((axisCoefficient (Unreal3Frame.axis 0) ((⟨RIGHT, FORWARD, UP⟩ : triple).axis 1) : Int)
          : Int) :=
  ⟨by decide, by decide,
    getAtoBMatrix_getCaseNumber_entry ⟨RIGHT, FORWARD, UP⟩ Unreal3Frame (by decide) (by decide)
      ColumnMatrix3d.identity 0 1⟩

/-- C2: for a case number in `[0,48)`, `matrixCob3x3` is the conjugation
`P * M * transpose(P)` with `P = getAtoBMatrix(c)`, in exact arithmetic. -/
theorem matrixCob3x3_eq_conjugation {α : Type} [CommRing α] (c : Int) (h0 : 0 ≤ c)
    (h48 : c < 48) (m M : ColumnMatrix3d α) :
    matrixCob3x3 c M =
      ((getAtoBMatrix c m).mul M).mul (getAtoBMatrix c m).transpose :=
  matrixCob3x3_eq_conj c h0 h48 m M _ rfl

theorem matrixCob3x3_eq_conjugation_witness :
    (0 : Int) ≤ 9 ∧ (9 : Int) < 48 ∧
      matrixCob3x3 9 (⟨900, 901, 902, 910, 911, 912, 920, 921, 922⟩ : ColumnMatrix3d Int) =
        ((getAtoBMatrix 9 ColumnMatrix3d.identity).mul
          ⟨900, 901, 902, 910, 911, 912, 920, 921, 922⟩).mul
          (getAtoBMatrix 9 ColumnMatrix3d.identity).transpose :=
  ⟨by decide, by decide, matrixCob3x3_eq_conjugation 9 (by decide) (by decide) _ _⟩

/-- C3: for a case number in `[0,48)`, `vectorCob` is the matrix-vector product
`getAtoBMatrix(c) * v`. -/
theorem vectorCob_eq_matrix_product {α : Type} [CommRing α] (c : Int) (h0 : 0 ≤ c)
    (h48 : c < 48) (m : ColumnMatrix3d α) (v : Vector3d α) :
    vectorCob c v = (getAtoBMatrix c m).mulVec v :=
  vectorCob_eq_mulVec c h0 h48 m v

theorem vectorCob_eq_matrix_product_witness :
    (0 : Int) ≤ 26 ∧ (26 : Int) < 48 ∧
      vectorCob 26 (⟨3, 5, 7⟩ : Vector3d Int) =
        (getAtoBMatrix 26 ColumnMatrix3d.identity).mulVec ⟨3, 5, 7⟩ :=
  ⟨by decide, by decide, vectorCob_eq_matrix_product 26 (by decide) (by decide) _ _⟩

/-- C4: for a case number in `[0,48)`, the matrix of the quaternion produced by `quatCob`
(by the formula of `quat4dToColumnMatrix3d`) is `matrixCob3x3` applied to the matrix of the
original quaternion, which is `P * R(q) * transpose(P)` with `P = getAtoBMatrix(c)`. -/
theorem quatCob_matches_matrixCob3x3 {α : Type} [CommRing α] (c : Int) (h0 : 0 ≤ c)
    (h48 : c < 48) (m : ColumnMatrix3d α) (q : Quat4d α) :
    quat4dToColumnMatrix3d (quatCob c q) = matrixCob3x3 c (quat4dToColumnMatrix3d q) ∧
      quat4dToColumnMatrix3d (quatCob c q) =
        ((getAtoBMatrix c m).mul (quat4dToColumnMatrix3d q)).mul
          (getAtoBMatrix c m).transpose := by
  have h := quat4dToColumnMatrix3d_quatCob c h0 h48 q
  exact ⟨h, h.trans (matrixCob3x3_eq_conj c h0 h48 m _ _ rfl)⟩

theorem quatCob_matches_matrixCob3x3_witness :
    (0 : Int) ≤ 33 ∧ (33 : Int) < 48 ∧
      (quat4dToColumnMatrix3d (quatCob 33 (⟨2, 3, 5, 7⟩ : Quat4d Int)) =
          matrixCob3x3 33 (quat4dToColumnMatrix3d ⟨2, 3, 5, 7⟩) ∧
        quat4dToColumnMatrix3d (quatCob 33 (⟨2, 3, 5, 7⟩ : Quat4d Int)) =
          ((getAtoBMatrix 33 ColumnMatrix3d.identity).mul
            (quat4dToColumnMatrix3d ⟨2, 3, 5, 7⟩)).mul
            (getAtoBMatrix 33 ColumnMatrix3d.identity).transpose) :=
  ⟨by decide, by decide, quatCob_matches_matrixCob3x3 33 (by decide) (by decide) _ _⟩

/-- C5: the Euler sign rule agrees with the matrix change of basis.  For well-formed frames
`A`, `B` and an angle `X` (yaw about `UP`, pitch about `RIGHT`, roll about `FORWARD`), let
`i` and `j` be the positions of the axes of `A` and of `B` on the unsigned axis of `X`.
Then `matrixCob3x3` with the case number of `(A, B)` takes the elementary rotation about
coordinate axis `i` with cosine `c` and sine `s` to the elementary rotation about axis `j`
with cosine `c` and sine `-s` if the bit of `X` in `getEulerCaseNumber(A, B)` is set, and
sine `s` otherwise. -/
theorem eulerSign_agrees_with_matrixCob3x3 {α : Type} [CommRing α] (A B : triple)
    (hA : WellFormed A) (hB : WellFormed B) (X : EulerAngle) (i j : Fin 3)
    (hi : matchDirection X.direction (A.axis i) = true)
    (hj : matchDirection X.direction (B.axis j) = true) (c s : α) :
    matrixCob3x3 (getCaseNumber A B) (elementaryRotation i c s) =
      elementaryRotation j c
        (if Int.land (getEulerCaseNumber A B) X.mask ≠ 0 then -s else s) :=
  matrixCob3x3_elementaryRotation_frames A B hA hB X i j hi hj c s

theorem eulerSign_agrees_with_matrixCob3x3_witness :
    WellFormed ⟨RIGHT, FORWARD, UP⟩ ∧ WellFormed Unreal3Frame ∧
      matchDirection EulerAngle.roll.direction ((⟨RIGHT, FORWARD, UP⟩ : triple).axis 1) = true ∧
      matchDirection EulerAngle.roll.direction (Unreal3Frame.axis 0) = true ∧
      matrixCob3x3 (getCaseNumber ⟨RIGHT, FORWARD, UP⟩ Unreal3Frame)
          (elementaryRotation 1 (4 : Int) 3) =
        elementaryRotation 0 4
          (if Int.land (getEulerCaseNumber ⟨RIGHT, FORWARD, UP⟩ Unreal3Frame)
            EulerAngle.roll.mask ≠ 0 then -3 else 3) :=
  ⟨by decide, by decide, by decide, by decide,
    eulerSign_agrees_with_matrixCob3x3 ⟨RIGHT, FORWARD, UP⟩ Unreal3Frame (by decide) (by decide)
      EulerAngle.roll 1 0 (by decide) (by decide) 4 3⟩

/-- C6: composition law.  For well-formed frames `A`, `B`, `C`, applying an applier with
the case number of `(A, B)` and then with that of `(B, C)` is applying it once with the case
number of `(A, C)`, for `vectorCob`, `matrixCob3x3` and `quatCob`. -/
theorem appliers_compose {α : Type} [CommRing α] (A B C : triple) (hA : WellFormed A)
    (hB : WellFormed B) (hC : WellFormed C) (v : Vector3d α) (M : ColumnMatrix3d α)
    (q : Quat4d α) :
    vectorCob (getCaseNumber B C) (vectorCob (getCaseNumber A B) v) =
        vectorCob (getCaseNumber A C) v ∧
      matrixCob3x3 (getCaseNumber B C) (matrixCob3x3 (getCaseNumber A B) M) =
        matrixCob3x3 (getCaseNumber A C) M ∧
      quatCob (getCaseNumber B C) (quatCob (getCaseNumber A B) q) =
        quatCob (getCaseNumber A C) q :=
  ⟨vectorCob_comp A B C hA hB hC v, matrixCob3x3_comp A B C hA hB hC M,
    quatCob_comp A B C hA hB hC q⟩

theorem appliers_compose_witness :
    WellFormed BvhFrame ∧ WellFormed KinectFrame ∧ WellFormed Unreal3Frame ∧
      (vectorCob (getCaseNumber KinectFrame Unreal3Frame)
          (vectorCob (getCaseNumber BvhFrame KinectFrame) (⟨3, 5, 7⟩ : Vector3d Int)) =
          vectorCob (getCaseNumber BvhFrame Unreal3Frame) ⟨3, 5, 7⟩ ∧
        matrixCob3x3 (getCaseNumber KinectFrame Unreal3Frame)
          (matrixCob3x3 (getCaseNumber BvhFrame KinectFrame)
            (⟨900, 901, 902, 910, 911, 912, 920, 921, 922⟩ : ColumnMatrix3d Int)) =
          matrixCob3x3 (getCaseNumber BvhFrame Unreal3Frame)
            ⟨900, 901, 902, 910, 911, 912, 920, 921, 922⟩ ∧
        quatCob (getCaseNumber KinectFrame Unreal3Frame)
          (quatCob (getCaseNumber BvhFrame KinectFrame) (⟨2, 3, 5, 7⟩ : Quat4d Int)) =
          quatCob (getCaseNumber BvhFrame Unreal3Frame) ⟨2, 3, 5, 7⟩) :=
  ⟨by decide, by decide, by decide,
    appliers_compose BvhFrame KinectFrame Unreal3Frame (by decide) (by decide) (by decide)
      _ _ _⟩

/-- C7: inverse round trip.  For well-formed frames `A`, `B`, applying an applier with the
case number of `(A, B)` and then with that of `(B, A)` returns the original value, for
`vectorCob`, `matrixCob3x3` and `quatCob`. -/
theorem appliers_round_trip {α : Type} [CommRing α] (A B : triple) (hA : WellFormed A)
    (hB : WellFormed B) (v : Vector3d α) (M : ColumnMatrix3d α) (q : Quat4d α) :
    vectorCob (getCaseNumber B A) (vectorCob (getCaseNumber A B) v) = v ∧
      matrixCob3x3 (getCaseNumber B A) (matrixCob3x3 (getCaseNumber A B) M) = M ∧
      quatCob (getCaseNumber B A) (quatCob (getCaseNumber A B) q) = q := by
  refine ⟨?_, ?_, ?_⟩
  · rw [vectorCob_comp A B A hA hB hA, getCaseNumber_self, vectorCob_zero]
  · rw [matrixCob3x3_comp A B A hA hB hA, getCaseNumber_self, matrixCob3x3_zero]
  · rw [quatCob_comp A B A hA hB hA, getCaseNumber_self, quatCob_zero]

theorem appliers_round_trip_witness :
    WellFormed OpenGLFrame ∧ WellFormed BvhBlenderFrame ∧
      (vectorCob (getCaseNumber BvhBlenderFrame OpenGLFrame)
          (vectorCob (getCaseNumber OpenGLFrame BvhBlenderFrame) (⟨3, 5, 7⟩ : Vector3d Int)) =
          ⟨3, 5, 7⟩ ∧
        matrixCob3x3 (getCaseNumber BvhBlenderFrame OpenGLFrame)
          (matrixCob3x3 (getCaseNumber OpenGLFrame BvhBlenderFrame)
            (⟨900, 901, 902, 910, 911, 912, 920, 921, 922⟩ : ColumnMatrix3d Int)) =
          ⟨900, 901, 902, 910, 911, 912, 920, 921, 922⟩ ∧
        quatCob (getCaseNumber BvhBlenderFrame OpenGLFrame)
          (quatCob (getCaseNumber OpenGLFrame BvhBlenderFrame) (⟨2, 3, 5, 7⟩ : Quat4d Int)) =
          ⟨2, 3, 5, 7⟩) :=
  ⟨by decide, by decide,
    appliers_round_trip OpenGLFrame BvhBlenderFrame (by decide) (by decide) _ _ _⟩

/-- C8: `getCaseNumber(f, f) = 0` for every integer triple `f`, well-formed or not. -/
theorem getCaseNumber_same_frame (f : triple) : getCaseNumber f f = 0 :=
  getCaseNumber_self f

/-- C9: case number 0 is the identity transform for matrices: `matrixCob3x3(0, M) = M`. -/
theorem matrixCob3x3_identity_case {α : Type} [CommRing α] (M : ColumnMatrix3d α) :
    matrixCob3x3 0 M = M :=
  matrixCob3x3_zero M

/-- C10: `quatCob` never alters the scalar part: for every integer case number the `w` after
the call is the `w` before, and the resulting `(x, y, z)` do not depend on `w`. -/
theorem quatCob_keeps_scalar {α : Type} [CommRing α] (caseNumber : Int) (q : Quat4d α) :
    (quatCob caseNumber q).w = q.w ∧
      ∀ w : α, (quatCob caseNumber ⟨w, q.x, q.y, q.z⟩).vec = (quatCob caseNumber q).vec :=
  quatCob_scalar caseNumber q


/-! ## Euler angles: the functions only change signs -/

section EulerSigns

variable {α : Type} [CommRing α]

theorem getYawPitchRollRotationOrderFromAxisFrame_scaleBy (f : triple) (s : YawPitchRoll Int)
    (e : YawPitchRoll α) :
    getYawPitchRollRotationOrderFromAxisFrame f (s.scaleBy e) =
      (getYawPitchRollRotationOrderFromAxisFrame f s).scaleBy e := by
  unfold getYawPitchRollRotationOrderFromAxisFrame
  split_ifs <;> simp [YawPitchRoll.scaleBy]

theorem getYawPitchRollRotationOrderFromAxisFrame_isSigns (f : triple) (s : YawPitchRoll Int)
    (h : s.isSigns) : (getYawPitchRollRotationOrderFromAxisFrame f s).isSigns := by
  have key : ∀ e : YawPitchRoll Int,
      ((getYawPitchRollRotationOrderFromAxisFrame f e).yaw = e.yaw ∨
        (getYawPitchRollRotationOrderFromAxisFrame f e).yaw = -e.yaw) ∧
      ((getYawPitchRollRotationOrderFromAxisFrame f e).pitch = e.pitch ∨
        (getYawPitchRollRotationOrderFromAxisFrame f e).pitch = -e.pitch) ∧
      ((getYawPitchRollRotationOrderFromAxisFrame f e).roll = e.roll ∨
        (getYawPitchRollRotationOrderFromAxisFrame f e).roll = -e.roll) := by
    intro e
    unfold getYawPitchRollRotationOrderFromAxisFrame
    split_ifs <;> simp
  obtain ⟨hy, hp, hr⟩ := h
  obtain ⟨ky, kp, kr⟩ := key s
  refine ⟨?_, ?_, ?_⟩
  · rcases ky with k | k <;> rcases hy with h | h <;> rw [k, h] <;> decide
  · rcases kp with k | k <;> rcases hp with h | h <;> rw [k, h] <;> decide
  · rcases kr with k | k <;> rcases hr with h | h <;> rw [k, h] <;> decide

theorem eulerCobFrames_scaleBy (f g : triple) (s : YawPitchRoll Int) (e : YawPitchRoll α) :
    eulerCobFrames f g (s.scaleBy e) = (eulerCobFrames f g s).scaleBy e := by
  unfold eulerCobFrames
  simp only [getYawPitchRollRotationOrderFromAxisFrame_scaleBy]
  split_ifs <;> simp [YawPitchRoll.scaleBy]

theorem eulerCobFrames_isSigns (f g : triple) (s : YawPitchRoll Int) (h : s.isSigns) :
    (eulerCobFrames f g s).isSigns := by
  have h2 := getYawPitchRollRotationOrderFromAxisFrame_isSigns g _
    (getYawPitchRollRotationOrderFromAxisFrame_isSigns f s h)
  obtain ⟨hy, hp, hr⟩ := h2
  unfold eulerCobFrames
  simp only []
  split_ifs
  · refine ⟨?_, ?_, ?_⟩
    · rcases hy with k | k <;> simp [k]
    · rcases hp with k | k <;> simp [k]
    · rcases hr with k | k <;> simp [k]
  · exact ⟨hy, hp, hr⟩

theorem scaleBy_ones (e : YawPitchRoll α) : (⟨1, 1, 1⟩ : YawPitchRoll Int).scaleBy e = e := by
  simp [YawPitchRoll.scaleBy]

/-- The convenience overload multiplies each angle by the sign it gives to `1`. -/
theorem eulerCobFrames_eq_scaleBy (f g : triple) (e : YawPitchRoll α) :
    eulerCobFrames f g e = (eulerCobFrames f g (⟨1, 1, 1⟩ : YawPitchRoll Int)).scaleBy e := by
  rw [← eulerCobFrames_scaleBy, scaleBy_ones]

/-- The Euler case number has the bit of an angle exactly when the convenience overload
sends `1` to `-1` for that angle. -/
theorem getEulerCaseNumber_eq (f g : triple) :
    getEulerCaseNumber f g =
      Int.lor (Int.lor (Int.lor 0
        (if (eulerCobFrames f g (⟨1, 1, 1⟩ : YawPitchRoll Int)).yaw = -1 then 4 else 0))
        (if (eulerCobFrames f g (⟨1, 1, 1⟩ : YawPitchRoll Int)).pitch = -1 then 2 else 0))
        (if (eulerCobFrames f g (⟨1, 1, 1⟩ : YawPitchRoll Int)).roll = -1 then 1 else 0) := by
  have hs := eulerCobFrames_isSigns f g ⟨1, 1, 1⟩ (by decide)
  have hq := eulerCobFrames_eq_scaleBy f g (⟨1, 1, 1⟩ : YawPitchRoll ℚ)
  unfold getEulerCaseNumber
  rw [hq]
  obtain ⟨hy, hp, hr⟩ := hs
  rcases hy with hy | hy <;> rcases hp with hp | hp <;> rcases hr with hr | hr <;>
    simp [YawPitchRoll.scaleBy, hy, hp, hr] <;> decide

theorem eulerCob_getEulerCaseNumber (f g : triple) (e : YawPitchRoll α) :
    eulerCobFrames f g e = eulerCob (getEulerCaseNumber f g) e := by
  have hs := eulerCobFrames_isSigns f g ⟨1, 1, 1⟩ (by decide)
  rw [getEulerCaseNumber_eq, eulerCobFrames_eq_scaleBy f g e]
  generalize eulerCobFrames f g (⟨1, 1, 1⟩ : YawPitchRoll Int) = t at hs ⊢
  obtain ⟨y, p, r⟩ := t
  obtain ⟨hy, hp, hr⟩ := hs
  simp only at hy hp hr
  rcases hy with rfl | rfl <;> rcases hp with rfl | rfl <;> rcases hr with rfl | rfl <;>
    (simp only [YawPitchRoll.scaleBy, Int.cast_one, Int.cast_neg, one_mul, neg_mul]
     rfl)

end EulerSigns


/-! ## Ranges of the two case numbers -/

theorem getCaseNumber_range (f g : triple) :
    0 ≤ getCaseNumber f g ∧ getCaseNumber f g < 48 ∧
      0 ≤ getCaseNumber f g / 8 ∧ getCaseNumber f g / 8 < 6 ∧
      0 ≤ getCaseNumber f g % 8 ∧ getCaseNumber f g % 8 < 8 := by
  unfold getCaseNumber
  simp only []
  split_ifs <;> decide

theorem getEulerCaseNumber_range (f g : triple) :
    0 ≤ getEulerCaseNumber f g ∧ getEulerCaseNumber f g < 8 := by
  unfold getEulerCaseNumber
  simp only []
  split_ifs <;> decide

/-! ## The matrices of the cases are orthogonal signed permutations -/

theorem caseMatrix_orthogonal (c : Int) (h0 : 0 ≤ c) (h48 : c < 48) :
    (caseMatrix c).transpose.mul (caseMatrix c) = ColumnMatrix3d.identity ∧
      (caseMatrix c).mul (caseMatrix c).transpose = ColumnMatrix3d.identity := by
  interval_cases c <;> decide

theorem caseMatrix_determinant (c : Int) (h0 : 0 ≤ c) (h48 : c < 48) :
    (caseMatrix c).determinant = 1 ∨ (caseMatrix c).determinant = -1 := by
  interval_cases c <;> decide

theorem caseMatrix_isSignedPermutation (c : Int) (h0 : 0 ≤ c) (h48 : c < 48) :
    isSignedPermutation (caseMatrix c) := by
  interval_cases c <;> decide

theorem caseOfMatrix_caseMatrix (c : Int) (h0 : 0 ≤ c) (h48 : c < 48) :
    caseOfMatrix (caseMatrix c) = c := by
  interval_cases c <;> decide


set_option maxRecDepth 100000 in
set_option synthInstance.maxSize 2048 in
set_option synthInstance.maxHeartbeats 400000 in
theorem signedPermutation_cases :
    ∀ a ∈ signValues, ∀ b ∈ signValues, ∀ c ∈ signValues, exactlyOneNonzero a b c →
    ∀ d ∈ signValues, ∀ e ∈ signValues, ∀ f ∈ signValues, exactlyOneNonzero d e f →
    ∀ g ∈ signValues, ∀ h ∈ signValues, ∀ i ∈ signValues, exactlyOneNonzero g h i →
    exactlyOneNonzero a d g → exactlyOneNonzero b e h → exactlyOneNonzero c f i →
      0 ≤ caseOfMatrix ⟨a, b, c, d, e, f, g, h, i⟩ ∧
      caseOfMatrix ⟨a, b, c, d, e, f, g, h, i⟩ < 48 ∧
      caseMatrix (caseOfMatrix ⟨a, b, c, d, e, f, g, h, i⟩) = ⟨a, b, c, d, e, f, g, h, i⟩ := by
  decide!

theorem mem_signValues (x : Int) (h : x = -1 ∨ x = 0 ∨ x = 1) : x ∈ signValues := by
  rcases h with rfl | rfl | rfl <;> decide

theorem caseMatrix_caseOfMatrix (m : ColumnMatrix3d Int) (h : isSignedPermutation m) :
    0 ≤ caseOfMatrix m ∧ caseOfMatrix m < 48 ∧ caseMatrix (caseOfMatrix m) = m := by
  obtain ⟨a, b, c, d, e, f, g, k, i⟩ := m
  obtain ⟨he, hr, hc⟩ := h
  exact signedPermutation_cases
    a (mem_signValues _ (he 0 0)) b (mem_signValues _ (he 0 1)) c (mem_signValues _ (he 0 2))
    (hr 0)
    d (mem_signValues _ (he 1 0)) e (mem_signValues _ (he 1 1)) f (mem_signValues _ (he 1 2))
    (hr 1)
    g (mem_signValues _ (he 2 0)) k (mem_signValues _ (he 2 1)) i (mem_signValues _ (he 2 2))
    (hr 2) (hc 0) (hc 1) (hc 2)

/-! ## From integer matrices to matrices over a ring of characteristic zero -/

section Cast

variable {α : Type} [CommRing α]

theorem ColumnMatrix3d.entry_map {β γ : Type} (φ : β → γ) (m : ColumnMatrix3d β)
    (i j : Fin 3) : (m.map φ).entry i j = φ (m.entry i j) := by
  fin_cases i <;> fin_cases j <;> rfl

theorem ColumnMatrix3d.map_transpose (m : ColumnMatrix3d Int) :
    m.transpose.map (Int.cast : Int → α) = (m.map Int.cast).transpose := rfl

theorem ColumnMatrix3d.map_identity :
    (ColumnMatrix3d.identity : ColumnMatrix3d Int).map (Int.cast : Int → α) =
      ColumnMatrix3d.identity := by
  simp [ColumnMatrix3d.map, ColumnMatrix3d.identity]

theorem ColumnMatrix3d.map_determinant (m : ColumnMatrix3d Int) :
    (m.map (Int.cast : Int → α)).determinant = ((m.determinant : Int) : α) := by
  simp only [ColumnMatrix3d.map, ColumnMatrix3d.determinant]
  push_cast
  ring

theorem ColumnMatrix3d.map_injective [CharZero α] (m n : ColumnMatrix3d Int)
    (h : m.map (Int.cast : Int → α) = n.map Int.cast) : m = n := by
  obtain ⟨a, b, c, d, e, f, g, k, i⟩ := m
  obtain ⟨a2, b2, c2, d2, e2, f2, g2, k2, i2⟩ := n
  simpa [ColumnMatrix3d.map] using h

theorem intCast_eq_neg_one_iff [CharZero α] (n : Int) : (n : α) = -1 ↔ n = -1 := by
  rw [← Int.cast_one, ← Int.cast_neg, Int.cast_inj]

theorem isSignedPermutation_map_iff [CharZero α] (m : ColumnMatrix3d Int) :
    isSignedPermutation (m.map (Int.cast : Int → α)) ↔ isSignedPermutation m := by
  simp only [isSignedPermutation, exactlyOneNonzero, ColumnMatrix3d.entry_map,
    intCast_eq_neg_one_iff, Int.cast_eq_zero, Int.cast_eq_one, ne_eq]

theorem exists_intCast (x : α) (h : x = -1 ∨ x = 0 ∨ x = 1) : ∃ n : Int, x = (n : α) := by
  rcases h with rfl | rfl | rfl
  · exact ⟨-1, by simp⟩
  · exact ⟨0, by simp⟩
  · exact ⟨1, by simp⟩

theorem exists_map_intCast (m : ColumnMatrix3d α)
    (h : ∀ i j : Fin 3, m.entry i j = -1 ∨ m.entry i j = 0 ∨ m.entry i j = 1) :
    ∃ n : ColumnMatrix3d Int, m = n.map Int.cast := by
  obtain ⟨a, b, c, d, e, f, g, k, i⟩ := m
  obtain ⟨a2, rfl⟩ := exists_intCast a (h 0 0)
  obtain ⟨b2, rfl⟩ := exists_intCast b (h 0 1)
  obtain ⟨c2, rfl⟩ := exists_intCast c (h 0 2)
  obtain ⟨d2, rfl⟩ := exists_intCast d (h 1 0)
  obtain ⟨e2, rfl⟩ := exists_intCast e (h 1 1)
  obtain ⟨f2, rfl⟩ := exists_intCast f (h 1 2)
  obtain ⟨g2, rfl⟩ := exists_intCast g (h 2 0)
  obtain ⟨k2, rfl⟩ := exists_intCast k (h 2 1)
  obtain ⟨i2, rfl⟩ := exists_intCast i (h 2 2)
  exact ⟨⟨a2, b2, c2, d2, e2, f2, g2, k2, i2⟩, rfl⟩

theorem getAtoBMatrix_orthogonal (c : Int) (h0 : 0 ≤ c) (h48 : c < 48)
    (m : ColumnMatrix3d α) :
    (getAtoBMatrix c m).transpose.mul (getAtoBMatrix c m) = ColumnMatrix3d.identity ∧
      (getAtoBMatrix c m).mul (getAtoBMatrix c m).transpose = ColumnMatrix3d.identity := by
  obtain ⟨h1, h2⟩ := caseMatrix_orthogonal c h0 h48
  rw [getAtoBMatrix_eq_caseMatrix c h0 h48 m, ← ColumnMatrix3d.map_transpose,
    ← ColumnMatrix3d.map_mul, ← ColumnMatrix3d.map_mul, h1, h2]
  exact ⟨ColumnMatrix3d.map_identity, ColumnMatrix3d.map_identity⟩

theorem getAtoBMatrix_determinant (c : Int) (h0 : 0 ≤ c) (h48 : c < 48)
    (m : ColumnMatrix3d α) :
    (getAtoBMatrix c m).determinant = 1 ∨ (getAtoBMatrix c m).determinant = -1 := by
  rw [getAtoBMatrix_eq_caseMatrix c h0 h48 m, ColumnMatrix3d.map_determinant]
  rcases caseMatrix_determinant c h0 h48 with h | h <;> rw [h] <;> simp

theorem getAtoBMatrix_injective [CharZero α] (c1 c2 : Int) (h1 : 0 ≤ c1 ∧ c1 < 48)
    (h2 : 0 ≤ c2 ∧ c2 < 48) (m1 m2 : ColumnMatrix3d α)
    (h : getAtoBMatrix c1 m1 = getAtoBMatrix c2 m2) : c1 = c2 := by
  rw [getAtoBMatrix_eq_caseMatrix c1 h1.1 h1.2, getAtoBMatrix_eq_caseMatrix c2 h2.1 h2.2] at h
  have h3 := congrArg caseOfMatrix (ColumnMatrix3d.map_injective _ _ h)
  rwa [caseOfMatrix_caseMatrix c1 h1.1 h1.2, caseOfMatrix_caseMatrix c2 h2.1 h2.2] at h3

theorem ColumnMatrix3d.mul_add (a b c : ColumnMatrix3d α) :
    a.mul (b.add c) = (a.mul b).add (a.mul c) := by
  simp only [ColumnMatrix3d.mul, ColumnMatrix3d.add]
  congr 1 <;> ring

theorem ColumnMatrix3d.add_mul (a b c : ColumnMatrix3d α) :
    (a.add b).mul c = (a.mul c).add (b.mul c) := by
  simp only [ColumnMatrix3d.mul, ColumnMatrix3d.add]
  congr 1 <;> ring

end Cast


/-! ## Claims C11 to C20 -/

/-- C11: `getCaseNumber` is total and its result is a valid case number for every pair of
integer triples, well-formed or not: `0 <= getCaseNumber(from, to) < 48`, with the
permutation index `getCaseNumber / 8` in `[0,6)` and the sign index `getCaseNumber mod 8`
in `[0,8)`. -/
theorem getCaseNumber_valid (fromFrame toFrame : triple) :
    0 ≤ getCaseNumber fromFrame toFrame ∧ getCaseNumber fromFrame toFrame < 48 ∧
      0 ≤ getCaseNumber fromFrame toFrame / 8 ∧ getCaseNumber fromFrame toFrame / 8 < 6 ∧
      0 ≤ getCaseNumber fromFrame toFrame % 8 ∧ getCaseNumber fromFrame toFrame % 8 < 8 :=
  getCaseNumber_range fromFrame toFrame

/-- C12: for all frames and all angles, the convenience overload
`eulerCob(from, to, yaw, pitch, roll)` produces the same three angles as
`eulerCob(getEulerCaseNumber(from, to), yaw, pitch, roll)`. -/
theorem eulerCob_overloads_agree {α : Type} [CommRing α] (fromFrame toFrame : triple)
    (yaw pitch roll : α) :
    eulerCobFrames fromFrame toFrame ⟨yaw, pitch, roll⟩ =
      eulerCob (getEulerCaseNumber fromFrame toFrame) ⟨yaw, pitch, roll⟩ :=
  eulerCob_getEulerCaseNumber fromFrame toFrame ⟨yaw, pitch, roll⟩

/-- C13: `eulerCob(eulerCaseNumber, yaw, pitch, roll)` only ever negates, for every integer
`eulerCaseNumber`: the resulting yaw is `-yaw` if bit 0x04 is set and `yaw` otherwise, the
resulting pitch is `-pitch` if bit 0x02 is set and `pitch` otherwise, and the resulting
roll is `-roll` if bit 0x01 is set and `roll` otherwise. -/
theorem eulerCob_only_negates {α : Type} [CommRing α] (eulerCaseNumber : Int)
    (yaw pitch roll : α) :
    eulerCob eulerCaseNumber ⟨yaw, pitch, roll⟩ =
      ⟨if Int.land eulerCaseNumber 4 ≠ 0 then -yaw else yaw,
       if Int.land eulerCaseNumber 2 ≠ 0 then -pitch else pitch,
       if Int.land eulerCaseNumber 1 ≠ 0 then -roll else roll⟩ := by
  unfold eulerCob
  simp only [bne_iff_ne, ne_eq]
  split_ifs <;> rfl

/-- C14: `getEulerCaseNumber(from, to)` is in `[0,8)` for every pair of frames. -/
theorem getEulerCaseNumber_valid (fromFrame toFrame : triple) :
    0 ≤ getEulerCaseNumber fromFrame toFrame ∧ getEulerCaseNumber fromFrame toFrame < 8 :=
  getEulerCaseNumber_range fromFrame toFrame

/-- C15: the Euler transform is unit-agnostic: for every Euler case number `e` and every
scale factor `k`, `eulerCob(e, k*yaw, k*pitch, k*roll)` is `k` times
`eulerCob(e, yaw, pitch, roll)` componentwise. -/
theorem eulerCob_scale {α : Type} [CommRing α] (e : Int) (k yaw pitch roll : α) :
    eulerCob e ⟨k * yaw, k * pitch, k * roll⟩ =
      ⟨k * (eulerCob e ⟨yaw, pitch, roll⟩).yaw, k * (eulerCob e ⟨yaw, pitch, roll⟩).pitch,
       k * (eulerCob e ⟨yaw, pitch, roll⟩).roll⟩ := by
  unfold eulerCob
  simp only []
  split_ifs <;> simp

/-- C16: for every case number in `[0,48)`, `matrixCob3x3(c, .)` is a ring homomorphism on
3x3 matrices: it preserves products, preserves sums, and maps the identity matrix to the
identity matrix. -/
theorem matrixCob3x3_ring_hom {α : Type} [CommRing α] (c : Int) (h0 : 0 ≤ c) (h48 : c < 48)
    (A B : ColumnMatrix3d α) :
    matrixCob3x3 c (A.mul B) = (matrixCob3x3 c A).mul (matrixCob3x3 c B) ∧
      matrixCob3x3 c (A.add B) = (matrixCob3x3 c A).add (matrixCob3x3 c B) ∧
      matrixCob3x3 c (ColumnMatrix3d.identity : ColumnMatrix3d α) = ColumnMatrix3d.identity := by
  obtain ⟨h1, h2⟩ := getAtoBMatrix_orthogonal c h0 h48 (ColumnMatrix3d.identity : ColumnMatrix3d α)
  have hc (M : ColumnMatrix3d α) := matrixCob3x3_eq_conj c h0 h48 ColumnMatrix3d.identity M _ rfl
  refine ⟨?_, ?_, ?_⟩
  · rw [hc, hc, hc]
    simp only [ColumnMatrix3d.mul_assoc]
    rw [← ColumnMatrix3d.mul_assoc (getAtoBMatrix c ColumnMatrix3d.identity).transpose, h1,
      ColumnMatrix3d.identity_mul]
  · rw [hc, hc, hc, ColumnMatrix3d.mul_add, ColumnMatrix3d.add_mul]
  · rw [hc, ColumnMatrix3d.mul_identity, h2]

theorem matrixCob3x3_ring_hom_witness :
    (0 : Int) ≤ 29 ∧ (29 : Int) < 48 ∧
      (matrixCob3x3 29
          ((⟨1, 2, 3, 4, 5, 6, 7, 8, 9⟩ : ColumnMatrix3d Int).mul ⟨2, 0, 1, 3, 1, 4, 1, 5, 9⟩) =
          (matrixCob3x3 29 ⟨1, 2, 3, 4, 5, 6, 7, 8, 9⟩).mul
            (matrixCob3x3 29 ⟨2, 0, 1, 3, 1, 4, 1, 5, 9⟩) ∧
        matrixCob3x3 29
          ((⟨1, 2, 3, 4, 5, 6, 7, 8, 9⟩ : ColumnMatrix3d Int).add ⟨2, 0, 1, 3, 1, 4, 1, 5, 9⟩) =
          (matrixCob3x3 29 ⟨1, 2, 3, 4, 5, 6, 7, 8, 9⟩).add
            (matrixCob3x3 29 ⟨2, 0, 1, 3, 1, 4, 1, 5, 9⟩) ∧
        matrixCob3x3 29 (ColumnMatrix3d.identity : ColumnMatrix3d Int) =
          ColumnMatrix3d.identity) :=
  ⟨by decide, by decide, matrixCob3x3_ring_hom 29 (by decide) (by decide) _ _⟩

/-- C17, as the specification states it, fails: for case number 1 the matrix applier takes
the identity matrix to the identity matrix, while `getAtoBMatrix(1)` is `diag(1, 1, -1)`. -/
theorem matrixCob3x3_identity_ne_getAtoBMatrix :
    (0 : Int) ≤ 1 ∧ (1 : Int) < 48 ∧
      matrixCob3x3 1 (ColumnMatrix3d.identity : ColumnMatrix3d Int) = ColumnMatrix3d.identity ∧
      getAtoBMatrix 1 (ColumnMatrix3d.identity : ColumnMatrix3d Int) =
        ⟨1, 0, 0, 0, 1, 0, 0, 0, -1⟩ ∧
      matrixCob3x3 1 (ColumnMatrix3d.identity : ColumnMatrix3d Int) ≠
        getAtoBMatrix 1 ColumnMatrix3d.identity := by
  decide

/-- C17, amended: for every case number in `[0,48)`, applying the matrix applier to the
identity matrix yields the identity matrix (the conjugation `P * I * transpose(P)`), and
this is the basis matrix `getAtoBMatrix(c)` only for `c = 0`. -/
theorem matrixCob3x3_identity {α : Type} [CommRing α] [CharZero α] (c : Int) (h0 : 0 ≤ c)
    (h48 : c < 48) (m : ColumnMatrix3d α) :
    matrixCob3x3 c (ColumnMatrix3d.identity : ColumnMatrix3d α) = ColumnMatrix3d.identity ∧
      (matrixCob3x3 c (ColumnMatrix3d.identity : ColumnMatrix3d α) = getAtoBMatrix c m ↔
        c = 0) := by
  have hI : matrixCob3x3 c (ColumnMatrix3d.identity : ColumnMatrix3d α) =
      ColumnMatrix3d.identity := by
    rw [matrixCob3x3_eq_conj c h0 h48 ColumnMatrix3d.identity _ _ rfl,
      ColumnMatrix3d.mul_identity, (getAtoBMatrix_orthogonal c h0 h48 _).2]
  refine ⟨hI, ?_⟩
  rw [hI]
  constructor
  · intro h
    have hm : getAtoBMatrix c m = getAtoBMatrix 0 m := h.symm
    exact getAtoBMatrix_injective c 0 ⟨h0, h48⟩ ⟨le_refl 0, by decide⟩ m m hm
  · rintro rfl
    rfl

theorem matrixCob3x3_identity_witness :
    (0 : Int) ≤ 1 ∧ (1 : Int) < 48 ∧
      (matrixCob3x3 1 (ColumnMatrix3d.identity : ColumnMatrix3d Int) =
          ColumnMatrix3d.identity ∧
        (matrixCob3x3 1 (ColumnMatrix3d.identity : ColumnMatrix3d Int) =
          getAtoBMatrix 1 ColumnMatrix3d.identity ↔ (1 : Int) = 0)) :=
  ⟨by decide, by decide, matrixCob3x3_identity 1 (by decide) (by decide) _⟩

/-- C18: for every case number in `[0,48)`, `getAtoBMatrix(c)` is a signed permutation
matrix: every entry is `-1`, `0` or `+1` and every row and every column contains exactly
one nonzero entry. -/
theorem getAtoBMatrix_isSignedPermutation {α : Type} [CommRing α] [CharZero α] (c : Int)
    (h0 : 0 ≤ c) (h48 : c < 48) (m : ColumnMatrix3d α) :
    isSignedPermutation (getAtoBMatrix c m) := by
  rw [getAtoBMatrix_eq_caseMatrix c h0 h48 m, isSignedPermutation_map_iff]
  exact caseMatrix_isSignedPermutation c h0 h48

theorem getAtoBMatrix_isSignedPermutation_witness :
    (0 : Int) ≤ 37 ∧ (37 : Int) < 48 ∧
      isSignedPermutation (getAtoBMatrix 37 (⟨9, 9, 9, 9, 9, 9, 9, 9, 9⟩ : ColumnMatrix3d Int)) :=
  ⟨by decide, by decide, getAtoBMatrix_isSignedPermutation 37 (by decide) (by decide) _⟩

/-- C19: the case number identifies its signed permutation uniquely: two different case
numbers in `[0,48)` have different matrices, and every signed permutation matrix of size 3
is the matrix of a case number in `[0,48)`. -/
theorem getAtoBMatrix_one_to_one {α : Type} [CommRing α] [CharZero α] :
    (∀ c1 c2 : Int, 0 ≤ c1 → c1 < 48 → 0 ≤ c2 → c2 < 48 → c1 ≠ c2 →
      ∀ m1 m2 : ColumnMatrix3d α, getAtoBMatrix c1 m1 ≠ getAtoBMatrix c2 m2) ∧
    (∀ P : ColumnMatrix3d α, isSignedPermutation P →
      ∃ c : Int, 0 ≤ c ∧ c < 48 ∧ ∀ m : ColumnMatrix3d α, getAtoBMatrix c m = P) := by
  constructor
  · intro c1 c2 h1 k1 h2 k2 hne m1 m2 h
    exact hne (getAtoBMatrix_injective c1 c2 ⟨h1, k1⟩ ⟨h2, k2⟩ m1 m2 h)
  · intro P hP
    obtain ⟨n, rfl⟩ := exists_map_intCast P hP.1
    rw [isSignedPermutation_map_iff] at hP
    obtain ⟨h0, h48, h⟩ := caseMatrix_caseOfMatrix n hP
    refine ⟨caseOfMatrix n, h0, h48, fun m => ?_⟩
    rw [getAtoBMatrix_eq_caseMatrix _ h0 h48 m, h]

theorem getAtoBMatrix_one_to_one_witness :
    (0 : Int) ≤ 3 ∧ (3 : Int) < 48 ∧ (0 : Int) ≤ 4 ∧ (4 : Int) < 48 ∧ (3 : Int) ≠ 4 ∧
      getAtoBMatrix 3 (ColumnMatrix3d.identity : ColumnMatrix3d Int) ≠
        getAtoBMatrix 4 (ColumnMatrix3d.identity : ColumnMatrix3d Int) ∧
      isSignedPermutation (⟨0, 0, -1, 1, 0, 0, 0, -1, 0⟩ : ColumnMatrix3d Int) ∧
      ∃ c : Int, 0 ≤ c ∧ c < 48 ∧
        ∀ m : ColumnMatrix3d Int, getAtoBMatrix c m = ⟨0, 0, -1, 1, 0, 0, 0, -1, 0⟩ :=
  ⟨by decide, by decide, by decide, by decide, by decide,
    getAtoBMatrix_one_to_one.1 3 4 (by decide) (by decide) (by decide) (by decide) (by decide)
      _ _,
    by decide, getAtoBMatrix_one_to_one.2 _ (by decide)⟩

/-- C20: for every case number in `[0,48)`, `quatCob` transforms `(x, y, z)` exactly as
`vectorCob` transforms a vector, up to one overall sign: each component of the result of
`quatCob` is `d` times the component of the result of `vectorCob`, where
`d = det(getAtoBMatrix(c))` is `+1` or `-1`. -/
theorem quatCob_eq_det_mul_vectorCob {α : Type} [CommRing α] (c : Int) (h0 : 0 ≤ c)
    (h48 : c < 48) (m : ColumnMatrix3d α) (x y z w : α) :
    (quatCob c ⟨w, x, y, z⟩).x = (getAtoBMatrix c m).determinant * (vectorCob c ⟨x, y, z⟩).x ∧
      (quatCob c ⟨w, x, y, z⟩).y =
        (getAtoBMatrix c m).determinant * (vectorCob c ⟨x, y, z⟩).y ∧
      (quatCob c ⟨w, x, y, z⟩).z =
        (getAtoBMatrix c m).determinant * (vectorCob c ⟨x, y, z⟩).z ∧
      ((getAtoBMatrix c m).determinant = 1 ∨ (getAtoBMatrix c m).determinant = -1) := by
  rw [quatCob_eq_scale c h0 h48 m ⟨w, x, y, z⟩ _ rfl, vectorCob_eq_mulVec c h0 h48 m]
  refine ⟨?_, ?_, ?_, getAtoBMatrix_determinant c h0 h48 m⟩ <;>
    simp only [Quat4d.ofVec, Quat4d.vec, Vector3d.scale] <;> ring

theorem quatCob_eq_det_mul_vectorCob_witness :
    (0 : Int) ≤ 8 ∧ (8 : Int) < 48 ∧
      ((quatCob 8 (⟨11, 3, 5, 7⟩ : Quat4d Int)).x =
          (getAtoBMatrix 8 (ColumnMatrix3d.identity : ColumnMatrix3d Int)).determinant *
            (vectorCob 8 ⟨3, 5, 7⟩).x ∧
        (quatCob 8 (⟨11, 3, 5, 7⟩ : Quat4d Int)).y =
          (getAtoBMatrix 8 (ColumnMatrix3d.identity : ColumnMatrix3d Int)).determinant *
            (vectorCob 8 ⟨3, 5, 7⟩).y ∧
        (quatCob 8 (⟨11, 3, 5, 7⟩ : Quat4d Int)).z =
          (getAtoBMatrix 8 (ColumnMatrix3d.identity : ColumnMatrix3d Int)).determinant *
            (vectorCob 8 ⟨3, 5, 7⟩).z ∧
        ((getAtoBMatrix 8 (ColumnMatrix3d.identity : ColumnMatrix3d Int)).determinant = 1 ∨
          (getAtoBMatrix 8 (ColumnMatrix3d.identity : ColumnMatrix3d Int)).determinant = -1)) :=
  ⟨by decide, by decide, quatCob_eq_det_mul_vectorCob 8 (by decide) (by decide) _ 3 5 7 11⟩


/-! ## Where `matrixCob3x3` takes each entry from -/

theorem matrixCob3x3_entry_source {α : Type} [CommRing α] (c : Int) (h0 : 0 ≤ c)
    (h48 : c < 48) (M : ColumnMatrix3d α) (q : Fin 3 × Fin 3) :
    (matrixCob3x3 c M).entry q.1 q.2 =
      if sourceNegated c q = true then -M.entry (sourcePosition c q).1 (sourcePosition c q).2
      else M.entry (sourcePosition c q).1 (sourcePosition c q).2 := by
  obtain ⟨i, j⟩ := q
  interval_cases c <;> fin_cases i <;> fin_cases j <;> rfl

theorem sourcePosition_bijective (c : Int) (h0 : 0 ≤ c) (h48 : c < 48) :
    Function.Bijective (sourcePosition c) := by
  interval_cases c <;> decide


/-! ## The rotation-order rule, frame by frame -/

theorem getYawPitchRollRotationOrderFromAxisFrame_signs :
    ∀ f ∈ allFrames,
      getYawPitchRollRotationOrderFromAxisFrame f (⟨1, 1, 1⟩ : YawPitchRoll Int) =
        ⟨if Xor' (f.has LEFT) (f.has BACK) then -1 else 1,
         if Xor' (f.has DOWN) (f.has BACK) then -1 else 1,
         if Xor' (f.has DOWN) (f.has LEFT) then -1 else 1⟩ := by
  decide

theorem axisFlips_eq {α : Type} [CommRing α] (f : triple) (e : YawPitchRoll α) :
    axisFlips f e =
      ⟨if Xor' (f.has LEFT) (f.has BACK) then -e.yaw else e.yaw,
       if Xor' (f.has DOWN) (f.has BACK) then -e.pitch else e.pitch,
       if Xor' (f.has DOWN) (f.has LEFT) then -e.roll else e.roll⟩ := by
  unfold axisFlips
  by_cases hd : f.has DOWN <;> by_cases hl : f.has LEFT <;> by_cases hb : f.has BACK <;>
    simp [hd, hl, hb, Xor']

theorem getYawPitchRollRotationOrderFromAxisFrame_net {α : Type} [CommRing α] (f : triple)
    (hf : WellFormed f) (e : YawPitchRoll α) :
    getYawPitchRollRotationOrderFromAxisFrame f e =
      ⟨if Xor' (f.has LEFT) (f.has BACK) then -e.yaw else e.yaw,
       if Xor' (f.has DOWN) (f.has BACK) then -e.pitch else e.pitch,
       if Xor' (f.has DOWN) (f.has LEFT) then -e.roll else e.roll⟩ := by
  have h := getYawPitchRollRotationOrderFromAxisFrame_signs f
    (mem_allFrames_of_wellFormed f hf)
  rw [← scaleBy_ones e, getYawPitchRollRotationOrderFromAxisFrame_scaleBy, h, scaleBy_ones]
  simp only [YawPitchRoll.scaleBy]
  congr 1 <;> split_ifs <;> simp

/-! ## Claims C21 to C30 -/

/-- C21: `matrixCob3x3` introduces no arithmetic on the entries: for every case number in
`[0,48)` there is a bijection `f` on the nine matrix positions and a sign for each position
such that, for every input matrix `M`, the output entry at position `q` is `+M[f(q)]` or
`-M[f(q)]`. -/
theorem matrixCob3x3_permutes_entries (c : Int) (h0 : 0 ≤ c) (h48 : c < 48) :
    ∃ (f : Fin 3 × Fin 3 → Fin 3 × Fin 3) (negated : Fin 3 × Fin 3 → Bool),
      Function.Bijective f ∧
      ∀ (α : Type) [CommRing α] (M : ColumnMatrix3d α) (q : Fin 3 × Fin 3),
        (matrixCob3x3 c M).entry q.1 q.2 =
          if negated q = true then -M.entry (f q).1 (f q).2 else M.entry (f q).1 (f q).2 :=
  ⟨sourcePosition c, sourceNegated c, sourcePosition_bijective c h0 h48,
    fun _ _ M q => matrixCob3x3_entry_source c h0 h48 M q⟩

theorem matrixCob3x3_permutes_entries_witness :
    (0 : Int) ≤ 9 ∧ (9 : Int) < 48 ∧
      ∃ (f : Fin 3 × Fin 3 → Fin 3 × Fin 3) (negated : Fin 3 × Fin 3 → Bool),
        Function.Bijective f ∧
        ∀ (α : Type) [CommRing α] (M : ColumnMatrix3d α) (q : Fin 3 × Fin 3),
          (matrixCob3x3 9 M).entry q.1 q.2 =
            if negated q = true then -M.entry (f q).1 (f q).2 else M.entry (f q).1 (f q).2 :=
  ⟨by decide, by decide, matrixCob3x3_permutes_entries 9 (by decide) (by decide)⟩

/-- C22: for every well-formed frame `F`, `getYawPitchRollRotationOrderFromAxisFrame`
composes exactly these flips: pitch and roll are negated if `F` has `DOWN`, yaw and roll if
`F` has `LEFT`, yaw and pitch if `F` has `BACK`.  Hence the net result negates yaw iff
exactly one of `LEFT`, `BACK` occurs in `F`, pitch iff exactly one of `DOWN`, `BACK` occurs,
and roll iff exactly one of `DOWN`, `LEFT` occurs, whatever the order of the axes. -/
theorem getYawPitchRollRotationOrderFromAxisFrame_flips {α : Type} [CommRing α] (F : triple)
    (hF : WellFormed F) (yaw pitch roll : α) :
    getYawPitchRollRotationOrderFromAxisFrame F ⟨yaw, pitch, roll⟩ =
        axisFlips F ⟨yaw, pitch, roll⟩ ∧
      getYawPitchRollRotationOrderFromAxisFrame F ⟨yaw, pitch, roll⟩ =
        ⟨if Xor' (F.has LEFT) (F.has BACK) then -yaw else yaw,
         if Xor' (F.has DOWN) (F.has BACK) then -pitch else pitch,
         if Xor' (F.has DOWN) (F.has LEFT) then -roll else roll⟩ := by
  have h := getYawPitchRollRotationOrderFromAxisFrame_net F hF ⟨yaw, pitch, roll⟩
  exact ⟨by rw [h, axisFlips_eq], h⟩

theorem getYawPitchRollRotationOrderFromAxisFrame_flips_witness :
    WellFormed OpenGLFrame ∧
      (getYawPitchRollRotationOrderFromAxisFrame OpenGLFrame (⟨23, 33, 80⟩ : YawPitchRoll Int) =
          axisFlips OpenGLFrame ⟨23, 33, 80⟩ ∧
        getYawPitchRollRotationOrderFromAxisFrame OpenGLFrame (⟨23, 33, 80⟩ : YawPitchRoll Int) =
          ⟨if Xor' (OpenGLFrame.has LEFT) (OpenGLFrame.has BACK) then -23 else 23,
           if Xor' (OpenGLFrame.has DOWN) (OpenGLFrame.has BACK) then -33 else 33,
           if Xor' (OpenGLFrame.has DOWN) (OpenGLFrame.has LEFT) then -80 else 80⟩) :=
  ⟨by decide, getYawPitchRollRotationOrderFromAxisFrame_flips OpenGLFrame (by decide) 23 33 80⟩

/-- C23: the permutation indices 1, 2 and 5, for which `eulerCob(from, to, ...)` negates all
three angles, are exactly the odd permutations: for `p` in `[0,6)`,
`det(getAtoBMatrix(8*p))` is `-1` if `p` is 1, 2 or 5, and `+1` if `p` is 0, 3 or 4. -/
theorem getAtoBMatrix_permutation_determinant {α : Type} [CommRing α] (p : Int) (h0 : 0 ≤ p)
    (h6 : p < 6) (m : ColumnMatrix3d α) :
    (getAtoBMatrix (8 * p) m).determinant = if p = 1 ∨ p = 2 ∨ p = 5 then -1 else 1 := by
  have h : (caseMatrix (8 * p)).determinant = if p = 1 ∨ p = 2 ∨ p = 5 then -1 else 1 := by
    interval_cases p <;> decide
  rw [getAtoBMatrix_eq_caseMatrix (8 * p) (by omega) (by omega) m,
    ColumnMatrix3d.map_determinant, h]
  split_ifs <;> simp

theorem getAtoBMatrix_permutation_determinant_witness :
    (0 : Int) ≤ 5 ∧ (5 : Int) < 6 ∧
      (getAtoBMatrix (8 * 5) (ColumnMatrix3d.identity : ColumnMatrix3d Int)).determinant =
        if (5 : Int) = 1 ∨ (5 : Int) = 2 ∨ (5 : Int) = 5 then -1 else 1 :=
  ⟨by decide, by decide, getAtoBMatrix_permutation_determinant 5 (by decide) (by decide) _⟩

/-- C24: for directions `d1`, `d2` among the six of `changeOfBasis.h`, `matchDirection(d1, d2)`
is true exactly when `d1` and `d2` are equal or opposite, and exactly when
`d1 mod 4 = d2 mod 4`. -/
theorem matchDirection_iff (d1 d2 : Int) (h1 : isDirection d1) (h2 : isDirection d2) :
    (matchDirection d1 d2 = true ↔ d1 = d2 ∨ isOpposite d1 d2) ∧
      (matchDirection d1 d2 = true ↔ d1 % 4 = d2 % 4) := by
  rcases h1 with rfl | rfl | rfl | rfl | rfl | rfl <;>
  rcases h2 with rfl | rfl | rfl | rfl | rfl | rfl <;> decide

theorem matchDirection_iff_witness :
    isDirection LEFT ∧ isDirection RIGHT ∧
      ((matchDirection LEFT RIGHT = true ↔ LEFT = RIGHT ∨ isOpposite LEFT RIGHT) ∧
        (matchDirection LEFT RIGHT = true ↔ LEFT % 4 = RIGHT % 4)) :=
  ⟨by decide, by decide, matchDirection_iff LEFT RIGHT (by decide) (by decide)⟩

/-- C25: `getCaseNumber((RIGHT, FORWARD, UP), (FORWARD, RIGHT, UP)) = 16`, and
`getAtoBMatrix(16)` is the matrix with rows `(0,1,0)`, `(1,0,0)`, `(0,0,1)`. -/
theorem scenario_inertialLabs_to_unreal {α : Type} [CommRing α] (m : ColumnMatrix3d α) :
    getCaseNumber ⟨RIGHT, FORWARD, UP⟩ ⟨FORWARD, RIGHT, UP⟩ = 16 ∧
      getAtoBMatrix 16 m = ⟨0, 1, 0, 1, 0, 0, 0, 0, 1⟩ :=
  ⟨by decide, rfl⟩

/-- C26: `getCaseNumber(KinectFrame, OpenGLFrame)`, that is
`getCaseNumber((RIGHT, UP, BACK), (LEFT, UP, FORWARD))`, equals 5, and `getAtoBMatrix(5)` is
`diag(-1, 1, -1)`. -/
theorem scenario_kinect_to_openGL {α : Type} [CommRing α] (m : ColumnMatrix3d α) :
    KinectFrame = ⟨RIGHT, UP, BACK⟩ ∧ OpenGLFrame = ⟨LEFT, UP, FORWARD⟩ ∧
      getCaseNumber KinectFrame OpenGLFrame = 5 ∧
      getAtoBMatrix 5 m = ⟨-1, 0, 0, 0, 1, 0, 0, 0, -1⟩ :=
  ⟨rfl, rfl, by decide, rfl⟩

/-- C27: for the frame pair `(RIGHT, FORWARD, UP) -> (FORWARD, RIGHT, UP)` (case number 16)
the Euler case number is 7 and `eulerCob` with it yields `(-yaw, -pitch, -roll)`. -/
theorem scenario_inertialLabs_euler {α : Type} [CommRing α] (yaw pitch roll : α) :
    getCaseNumber ⟨RIGHT, FORWARD, UP⟩ ⟨FORWARD, RIGHT, UP⟩ = 16 ∧
      getEulerCaseNumber ⟨RIGHT, FORWARD, UP⟩ ⟨FORWARD, RIGHT, UP⟩ = 7 ∧
      eulerCob (getEulerCaseNumber ⟨RIGHT, FORWARD, UP⟩ ⟨FORWARD, RIGHT, UP⟩)
        ⟨yaw, pitch, roll⟩ = ⟨-yaw, -pitch, -roll⟩ := by
  have h : getEulerCaseNumber ⟨RIGHT, FORWARD, UP⟩ ⟨FORWARD, RIGHT, UP⟩ = 7 := by decide
  refine ⟨by decide, h, ?_⟩
  rw [h]
  rfl

/-- C28: for the frame pair `KinectFrame (RIGHT, UP, BACK) -> OpenGLFrame (LEFT, UP, FORWARD)`
the derived Euler case keeps yaw and negates pitch and roll. -/
theorem scenario_kinect_euler {α : Type} [CommRing α] (yaw pitch roll : α) :
    eulerCob (getEulerCaseNumber KinectFrame OpenGLFrame) ⟨yaw, pitch, roll⟩ =
      ⟨yaw, -pitch, -roll⟩ := by
  have h : getEulerCaseNumber KinectFrame OpenGLFrame = 3 := by decide
  rw [h]
  rfl

/-- C29: for every cosine `c` and sine `s`, `matrixCob3x3` with the case number of
`(RIGHT, FORWARD, UP) -> (FORWARD, RIGHT, UP)` takes the rotation about X
`[[1,0,0],[0,c,-s],[0,s,c]]` to the rotation about Y of the negated angle,
`[[c,0,-s],[0,1,0],[s,0,c]]`. -/
theorem scenario_rotationX_to_rotationY {α : Type} [CommRing α] (c s : α) :
    ColumnMatrix3d.fromRotationX c s = ⟨1, 0, 0, 0, c, -s, 0, s, c⟩ ∧
      matrixCob3x3 (getCaseNumber ⟨RIGHT, FORWARD, UP⟩ ⟨FORWARD, RIGHT, UP⟩)
        (ColumnMatrix3d.fromRotationX c s) = ⟨c, 0, -s, 0, 1, 0, s, 0, c⟩ ∧
      matrixCob3x3 (getCaseNumber ⟨RIGHT, FORWARD, UP⟩ ⟨FORWARD, RIGHT, UP⟩)
        (ColumnMatrix3d.fromRotationX c s) = ColumnMatrix3d.fromRotationY c (-s) := by
  have h : getCaseNumber ⟨RIGHT, FORWARD, UP⟩ ⟨FORWARD, RIGHT, UP⟩ = 16 := by decide
  rw [h]
  refine ⟨rfl, ?_, ?_⟩
  · conv => lhs; whnf
    simp [ColumnMatrix3d.fromRotationX]
  · conv => lhs; whnf
    simp [ColumnMatrix3d.fromRotationX, ColumnMatrix3d.fromRotationY]

/-- C30: the Euler case number is not a function of the case number: there are well-formed
frame pairs `(A, B)` and `(C, D)` with the same case number and different Euler case
numbers. -/
theorem eulerCaseNumber_not_function_of_caseNumber :
    ∃ A B C D : triple, WellFormed A ∧ WellFormed B ∧ WellFormed C ∧ WellFormed D ∧
      getCaseNumber A B = getCaseNumber C D ∧
      getEulerCaseNumber A B ≠ getEulerCaseNumber C D :=
  ⟨⟨FORWARD, RIGHT, UP⟩, ⟨BACK, RIGHT, UP⟩, ⟨RIGHT, FORWARD, UP⟩, ⟨LEFT, FORWARD, UP⟩,
    by decide, by decide, by decide, by decide, by decide, by decide⟩

/-! ## Case numbers outside the tables -/

theorem matrixCob3x3_of_not_range {α : Type} [Neg α] (c : Int) (h : c < 0 ∨ 48 ≤ c)
    (a : ColumnMatrix3d α) : matrixCob3x3 c a = a := by
  unfold matrixCob3x3
  split <;> first | rfl | (exfalso; omega)

theorem getAtoBMatrix_of_not_range {α : Type} [Zero α] [One α] [Neg α] (c : Int)
    (h : c < 0 ∨ 48 ≤ c) (m : ColumnMatrix3d α) : getAtoBMatrix c m = m := by
  unfold getAtoBMatrix
  split <;> first | rfl | (exfalso; omega)

theorem quatCob_of_not_range {α : Type} [Neg α] (c : Int) (h : c < 0 ∨ 48 ≤ c)
    (q : Quat4d α) : quatCob c q = q := by
  unfold quatCob
  split <;> first | rfl | (exfalso; omega)

theorem vectorCob_of_not_range {α : Type} [Neg α] (c : Int) (h : c < 0 ∨ 48 ≤ c)
    (v : Vector3d α) : vectorCob c v = v := by
  unfold vectorCob
  split <;> first | rfl | (exfalso; omega)

/-! ## Traces, determinants and rotation matrices -/

theorem ColumnMatrix3d.trace_mul_comm {α : Type} [CommRing α] (a b : ColumnMatrix3d α) :
    (a.mul b).trace = (b.mul a).trace := by
  simp only [ColumnMatrix3d.mul, ColumnMatrix3d.trace]
  ring

theorem ColumnMatrix3d.determinant_transpose {α : Type} [CommRing α] (a : ColumnMatrix3d α) :
    a.transpose.determinant = a.determinant := by
  simp only [ColumnMatrix3d.transpose, ColumnMatrix3d.determinant]
  ring

theorem ColumnMatrix3d.transpose_transpose {α : Type} (a : ColumnMatrix3d α) :
    a.transpose.transpose = a := rfl

theorem conj_trace {α : Type} [CommRing α] (P M : ColumnMatrix3d α)
    (hP : P.transpose.mul P = ColumnMatrix3d.identity) :
    ((P.mul M).mul P.transpose).trace = M.trace := by
  rw [ColumnMatrix3d.trace_mul_comm, ← ColumnMatrix3d.mul_assoc, hP,
    ColumnMatrix3d.identity_mul]

theorem conj_determinant {α : Type} [CommRing α] (P M : ColumnMatrix3d α)
    (hP : P.determinant = 1 ∨ P.determinant = -1) :
    ((P.mul M).mul P.transpose).determinant = M.determinant := by
  rw [ColumnMatrix3d.determinant_mul, ColumnMatrix3d.determinant_mul,
    ColumnMatrix3d.determinant_transpose]
  rcases hP with h | h <;> rw [h] <;> ring

theorem conj_orthogonal {α : Type} [CommRing α] (P M : ColumnMatrix3d α)
    (hP : P.transpose.mul P = ColumnMatrix3d.identity)
    (hP2 : P.mul P.transpose = ColumnMatrix3d.identity)
    (hM : M.mul M.transpose = ColumnMatrix3d.identity) :
    ((P.mul M).mul P.transpose).mul ((P.mul M).mul P.transpose).transpose =
      ColumnMatrix3d.identity := by
  rw [ColumnMatrix3d.transpose_mul, ColumnMatrix3d.transpose_mul,
    ColumnMatrix3d.transpose_transpose]
  calc ((P.mul M).mul P.transpose).mul (P.mul (M.transpose.mul P.transpose))
      = (P.mul (M.mul ((P.transpose.mul P).mul M.transpose))).mul P.transpose := by
        simp only [ColumnMatrix3d.mul_assoc]
    _ = ColumnMatrix3d.identity := by
        rw [hP, ColumnMatrix3d.identity_mul, hM, ColumnMatrix3d.mul_identity, hP2]

/-! ## Sign bits of the case number -/

theorem mem_directions (x : Int) : x ∈ directions ↔ isDirection x := by
  simp [directions, isDirection]

theorem caseMatrix_column_signs (c : Int) (h0 : 0 ≤ c) (h48 : c < 48) :
    (Int.land c 4 ≠ 0 ↔
      (caseMatrix c).m00 + (caseMatrix c).m10 + (caseMatrix c).m20 < 0) ∧
    (Int.land c 2 ≠ 0 ↔
      (caseMatrix c).m01 + (caseMatrix c).m11 + (caseMatrix c).m21 < 0) ∧
    (Int.land c 1 ≠ 0 ↔
      (caseMatrix c).m02 + (caseMatrix c).m12 + (caseMatrix c).m22 < 0) ∧
    (c % 8 = 0 ↔ Int.land c 4 = 0 ∧ Int.land c 2 = 0 ∧ Int.land c 1 = 0) := by
  interval_cases c <;> decide

/-- The coefficients of a direction against the three axes of a well-formed frame add up
to `-1` exactly when the frame holds the opposite of the direction, and to `+1` exactly
when it holds the direction itself. -/
theorem column_sum_neg_iff :
    ∀ g ∈ allFrames, ∀ x ∈ directions,
      ((axisCoefficient g.a x + axisCoefficient g.b x + axisCoefficient g.c x < 0 ↔
          ¬ g.has x) ∧
        ∀ j : Fin 3, matchDirection x (g.axis j) = true →
          (axisCoefficient g.a x + axisCoefficient g.b x + axisCoefficient g.c x < 0 ↔
            isOpposite x (g.axis j))) := by
  decide!

theorem has_iff_of_has (f g : triple) (hf : WellFormed f) :
    (g.has f.a ∧ g.has f.b ∧ g.has f.c) ↔ ∀ d, f.has d ↔ g.has d := by
  have fab : f.a ≠ f.b := fun h => hf.2.2.2.1 (by rw [h])
  have fac : f.a ≠ f.c := fun h => hf.2.2.2.2.1 (by rw [h])
  have fbc : f.b ≠ f.c := fun h => hf.2.2.2.2.2 (by rw [h])
  constructor
  · rintro ⟨ha, hb, hc⟩ d
    simp only [triple.has] at ha hb hc ⊢
    constructor <;> intro hd <;> omega
  · intro h
    exact ⟨(h f.a).1 (Or.inl rfl), (h f.b).1 (Or.inr (Or.inl rfl)),
      (h f.c).1 (Or.inr (Or.inr rfl))⟩

/-! ## The case number as a function of the target frame -/

theorem direction_eq_of_coefficients :
    ∀ x ∈ directions, ∀ y ∈ directions,
      axisCoefficient x FORWARD = axisCoefficient y FORWARD →
      axisCoefficient x RIGHT = axisCoefficient y RIGHT →
      axisCoefficient x UP = axisCoefficient y UP → x = y := by
  decide

theorem referenceMatrix_injective (g1 g2 : triple) (h1 : WellFormed g1) (h2 : WellFormed g2)
    (h : referenceMatrix g1 = referenceMatrix g2) : g1 = g2 := by
  obtain ⟨a1, b1, c1⟩ := g1
  obtain ⟨a2, b2, c2⟩ := g2
  simp only [referenceMatrix, frameMatrix, Unreal3Frame, ColumnMatrix3d.mk.injEq] at h
  obtain ⟨e1, e2, e3, e4, e5, e6, e7, e8, e9⟩ := h
  have ha := direction_eq_of_coefficients a1 ((mem_directions _).2 h1.1) a2
    ((mem_directions _).2 h2.1) e1 e2 e3
  have hb := direction_eq_of_coefficients b1 ((mem_directions _).2 h1.2.1) b2
    ((mem_directions _).2 h2.2.1) e4 e5 e6
  have hc := direction_eq_of_coefficients c1 ((mem_directions _).2 h1.2.2.1) c2
    ((mem_directions _).2 h2.2.2.1) e7 e8 e9
  rw [ha, hb, hc]

theorem frameMatrix_injective (f g1 g2 : triple) (hf : WellFormed f) (h1 : WellFormed g1)
    (h2 : WellFormed g2) (h : frameMatrix f g1 = frameMatrix f g2) : g1 = g2 := by
  have ho := referenceMatrix_orthogonal f (mem_allFrames_of_wellFormed f hf)
  have key : ∀ g, WellFormed g → (frameMatrix f g).mul (referenceMatrix f) =
      referenceMatrix g := by
    intro g hg
    rw [frameMatrix_eq_reference f g hf hg, ColumnMatrix3d.mul_assoc, ho,
      ColumnMatrix3d.mul_identity]
  apply referenceMatrix_injective g1 g2 h1 h2
  rw [← key g1 h1, ← key g2 h2, h]

theorem getCaseNumber_injective (f g1 g2 : triple) (hf : WellFormed f) (h1 : WellFormed g1)
    (h2 : WellFormed g2) (h : getCaseNumber f g1 = getCaseNumber f g2) : g1 = g2 := by
  apply frameMatrix_injective f g1 g2 hf h1 h2
  rw [← (caseMatrix_getCaseNumber f g1 hf h1).2.2, ← (caseMatrix_getCaseNumber f g2 hf h2).2.2,
    h]

theorem allFrames_nodup : allFrames.Nodup := by
  decide

theorem getCaseNumber_surjective (f : triple) (hf : WellFormed f) (c : Int) (h0 : 0 ≤ c)
    (h48 : c < 48) : ∃ g, WellFormed g ∧ getCaseNumber f g = c := by
  have hsub : (allFrames.toFinset).image (getCaseNumber f) ⊆ Finset.Ico (0 : Int) 48 := by
    intro x hx
    obtain ⟨g, -, rfl⟩ := Finset.mem_image.1 hx
    exact Finset.mem_Ico.2 ⟨(getCaseNumber_range f g).1, (getCaseNumber_range f g).2.1⟩
  have hcard : ((allFrames.toFinset).image (getCaseNumber f)).card = 48 := by
    rw [Finset.card_image_of_injOn, List.toFinset_card_of_nodup allFrames_nodup]
    · rfl
    · intro g1 m1 g2 m2 h
      exact getCaseNumber_injective f g1 g2 hf
        (wellFormed_of_mem_allFrames g1 (List.mem_toFinset.1 m1))
        (wellFormed_of_mem_allFrames g2 (List.mem_toFinset.1 m2)) h
  have heq := Finset.eq_of_subset_of_card_le hsub (by rw [hcard]; simp)
  have hc : c ∈ (allFrames.toFinset).image (getCaseNumber f) := by
    rw [heq]
    exact Finset.mem_Ico.2 ⟨h0, h48⟩
  obtain ⟨g, hg, rfl⟩ := Finset.mem_image.1 hc
  exact ⟨g, wellFormed_of_mem_allFrames g (List.mem_toFinset.1 hg), rfl⟩

/-! ## The Euler case number of a pair of frames -/

theorem eulerCobFrames_eq_pairFlip {α : Type} [CommRing α] (f g : triple)
    (hf : WellFormed f) (hg : WellFormed g) (e : YawPitchRoll α) :
    eulerCobFrames f g e =
      ⟨if pairFlip f g .yaw then -e.yaw else e.yaw,
       if pairFlip f g .pitch then -e.pitch else e.pitch,
       if pairFlip f g .roll then -e.roll else e.roll⟩ := by
  have h : eulerCobFrames f g e =
      if oddCase (normalizedFrame f) (normalizedFrame g) then
        ⟨-(getYawPitchRollRotationOrderFromAxisFrame g
            (getYawPitchRollRotationOrderFromAxisFrame f e)).yaw,
         -(getYawPitchRollRotationOrderFromAxisFrame g
            (getYawPitchRollRotationOrderFromAxisFrame f e)).pitch,
         -(getYawPitchRollRotationOrderFromAxisFrame g
            (getYawPitchRollRotationOrderFromAxisFrame f e)).roll⟩
      else
        getYawPitchRollRotationOrderFromAxisFrame g
          (getYawPitchRollRotationOrderFromAxisFrame f e) := rfl
  rw [h, getYawPitchRollRotationOrderFromAxisFrame_net f hf,
    getYawPitchRollRotationOrderFromAxisFrame_net g hg]
  simp only [pairFlip, frameFlip]
  by_cases ho : oddCase (normalizedFrame f) (normalizedFrame g) = true
  · rw [if_pos ho]
    simp only [ho]
    congr 1 <;> split_ifs <;> simp_all
  · rw [if_neg ho]
    simp only [Bool.eq_false_iff.2 ho]
    congr 1 <;> split_ifs <;> simp_all

theorem getEulerCaseNumber_eq_eulerBits (f g : triple) (hf : WellFormed f)
    (hg : WellFormed g) :
    getEulerCaseNumber f g =
      eulerBits (pairFlip f g .yaw) (pairFlip f g .pitch) (pairFlip f g .roll) := by
  rw [getEulerCaseNumber_eq, eulerCobFrames_eq_pairFlip f g hf hg]
  cases pairFlip f g .yaw <;> cases pairFlip f g .pitch <;> cases pairFlip f g .roll <;> rfl

theorem normalizedFrame_mem : ∀ f ∈ allFrames, normalizedFrame f ∈ normalFrames := by
  decide

theorem oddCase_symm : ∀ a ∈ normalFrames, ∀ b ∈ normalFrames, oddCase a b = oddCase b a := by
  decide

theorem oddCase_comp :
    ∀ a ∈ normalFrames, ∀ b ∈ normalFrames, ∀ c ∈ normalFrames,
      xor (oddCase a b) (oddCase b c) = oddCase a c := by
  decide

theorem oddCase_self (a : triple) : oddCase a a = false := by
  simp only [oddCase, getCaseNumber_self]
  rfl

theorem pairFlip_symm (f g : triple) (hf : WellFormed f) (hg : WellFormed g)
    (X : EulerAngle) : pairFlip f g X = pairFlip g f X := by
  have h := oddCase_symm _ (normalizedFrame_mem f (mem_allFrames_of_wellFormed f hf)) _
    (normalizedFrame_mem g (mem_allFrames_of_wellFormed g hg))
  simp only [pairFlip, h, Bool.xor_comm (frameFlip f X)]

theorem pairFlip_comp (f g h : triple) (hf : WellFormed f) (hg : WellFormed g)
    (hh : WellFormed h) (X : EulerAngle) :
    xor (pairFlip f g X) (pairFlip g h X) = pairFlip f h X := by
  have k := oddCase_comp _ (normalizedFrame_mem f (mem_allFrames_of_wellFormed f hf)) _
    (normalizedFrame_mem g (mem_allFrames_of_wellFormed g hg)) _
    (normalizedFrame_mem h (mem_allFrames_of_wellFormed h hh))
  simp only [pairFlip, ← k]
  cases frameFlip f X <;> cases frameFlip g X <;> cases frameFlip h X <;>
    cases oddCase (normalizedFrame f) (normalizedFrame g) <;>
    cases oddCase (normalizedFrame g) (normalizedFrame h) <;> rfl

theorem pairFlip_self (f : triple) (X : EulerAngle) : pairFlip f f X = false := by
  simp [pairFlip, oddCase_self]

theorem eulerBits_xor (a b c x y z : Bool) :
    Int.xor (eulerBits a b c) (eulerBits x y z) = eulerBits (xor a x) (xor b y) (xor c z) := by
  cases a <;> cases b <;> cases c <;> cases x <;> cases y <;> cases z <;> decide

theorem eulerCob_eulerBits {α : Type} [Neg α] (y p r : Bool) (e : YawPitchRoll α) :
    eulerCob (eulerBits y p r) e =
      ⟨if y then -e.yaw else e.yaw, if p then -e.pitch else e.pitch,
       if r then -e.roll else e.roll⟩ := by
  cases y <;> cases p <;> cases r <;> rfl

/-! ## Claims C31 to C39 -/

/-- C31, refuted as written: for the well-formed frames `(FORWARD, RIGHT, UP)` and
`(DOWN, LEFT, BACK)` the case number is 47, which is not at most 46. -/
theorem getCaseNumber_reaches_47 :
    WellFormed ⟨FORWARD, RIGHT, UP⟩ ∧ WellFormed ⟨DOWN, LEFT, BACK⟩ ∧
      getCaseNumber ⟨FORWARD, RIGHT, UP⟩ ⟨DOWN, LEFT, BACK⟩ = 47 ∧
      ¬ getCaseNumber ⟨FORWARD, RIGHT, UP⟩ ⟨DOWN, LEFT, BACK⟩ ≤ 46 := by
  decide

/-- C31, amended: for well-formed frames the case number is an integer in `[0,48)`, that
is, at least 0 and at most 47. -/
theorem getCaseNumber_wellFormed_bounds (fromFrame toFrame : triple)
    (hf : WellFormed fromFrame) (hg : WellFormed toFrame) :
    0 ≤ getCaseNumber fromFrame toFrame ∧ getCaseNumber fromFrame toFrame ≤ 47 := by
  obtain ⟨h0, h48, -⟩ := caseMatrix_getCaseNumber fromFrame toFrame hf hg
  exact ⟨h0, by omega⟩

theorem getCaseNumber_wellFormed_bounds_witness :
    WellFormed Unreal3Frame ∧ WellFormed ⟨DOWN, LEFT, BACK⟩ ∧
      0 ≤ getCaseNumber Unreal3Frame ⟨DOWN, LEFT, BACK⟩ ∧
      getCaseNumber Unreal3Frame ⟨DOWN, LEFT, BACK⟩ ≤ 47 :=
  ⟨by decide, by decide,
    getCaseNumber_wellFormed_bounds Unreal3Frame ⟨DOWN, LEFT, BACK⟩ (by decide) (by decide)⟩

/-- C33: the fall-through of `getCaseNumber` on ill-formed input.  When `from.a` shares
its unsigned axis with `to.b` but not with `to.a`, and `from.b` shares its unsigned axis
with neither `to.a` nor `to.c`, the function returns 4 if `from.a != to.b` and 0
otherwise, whatever `from.c` and `to.c` are. -/
theorem getCaseNumber_fall_through (fromFrame toFrame : triple)
    (h1 : matchDirection fromFrame.a toFrame.b = true)
    (h2 : matchDirection fromFrame.a toFrame.a = false)
    (h3 : matchDirection fromFrame.b toFrame.a = false)
    (h4 : matchDirection fromFrame.b toFrame.c = false) :
    getCaseNumber fromFrame toFrame = if fromFrame.a ≠ toFrame.b then 4 else 0 := by
  unfold getCaseNumber
  simp only [h1, h2, h3, h4]
  by_cases h : fromFrame.a = toFrame.b <;> simp [h, Int.lor]

theorem getCaseNumber_fall_through_witness :
    matchDirection FORWARD BACK = true ∧ matchDirection FORWARD RIGHT = false ∧
      matchDirection FORWARD UP = false ∧
      getCaseNumber ⟨FORWARD, FORWARD, LEFT⟩ ⟨RIGHT, BACK, UP⟩ =
        if FORWARD ≠ BACK then 4 else 0 :=
  ⟨by decide, by decide, by decide,
    getCaseNumber_fall_through ⟨FORWARD, FORWARD, LEFT⟩ ⟨RIGHT, BACK, UP⟩
      (by decide) (by decide) (by decide) (by decide)⟩

/-- C35: a case number outside `[0,48)` makes every applier a no-op: `matrixCob3x3`,
`vectorCob` and `quatCob` return their input unchanged, and `getAtoBMatrix` leaves the
nine output values as they were before the call. -/
theorem appliers_out_of_range {α : Type} [Zero α] [One α] [Neg α] (c : Int)
    (h : c < 0 ∨ 48 ≤ c) (M m : ColumnMatrix3d α) (v : Vector3d α) (q : Quat4d α) :
    matrixCob3x3 c M = M ∧ vectorCob c v = v ∧ quatCob c q = q ∧ getAtoBMatrix c m = m :=
  ⟨matrixCob3x3_of_not_range c h M, vectorCob_of_not_range c h v,
    quatCob_of_not_range c h q, getAtoBMatrix_of_not_range c h m⟩

theorem appliers_out_of_range_witness :
    ((48 : Int) < 0 ∨ (48 : Int) ≤ 48) ∧
      matrixCob3x3 48 (⟨1, 2, 3, 4, 5, 6, 7, 8, 9⟩ : ColumnMatrix3d Int) =
        ⟨1, 2, 3, 4, 5, 6, 7, 8, 9⟩ ∧
      vectorCob 48 (⟨3, 5, 7⟩ : Vector3d Int) = ⟨3, 5, 7⟩ ∧
      quatCob 48 (⟨1, 2, 3, 4⟩ : Quat4d Int) = ⟨1, 2, 3, 4⟩ ∧
      getAtoBMatrix 48 (⟨9, 8, 7, 6, 5, 4, 3, 2, 1⟩ : ColumnMatrix3d Int) =
        ⟨9, 8, 7, 6, 5, 4, 3, 2, 1⟩ :=
  ⟨by decide, appliers_out_of_range 48 (by decide) _ _ _ _⟩

/-- C38: for a case number in `[0,48)`, `matrixCob3x3` keeps the trace and the determinant
of every matrix, and it maps a rotation matrix (`M * Mᵀ = I`, `det M = 1`) to a rotation
matrix. -/
theorem matrixCob3x3_preserves_rotations {α : Type} [CommRing α] (c : Int) (h0 : 0 ≤ c)
    (h48 : c < 48) (M : ColumnMatrix3d α) :
    (matrixCob3x3 c M).trace = M.trace ∧
      (matrixCob3x3 c M).determinant = M.determinant ∧
      (M.mul M.transpose = ColumnMatrix3d.identity ∧ M.determinant = 1 →
        (matrixCob3x3 c M).mul (matrixCob3x3 c M).transpose = ColumnMatrix3d.identity ∧
          (matrixCob3x3 c M).determinant = 1) := by
  obtain ⟨hP, hP2⟩ := getAtoBMatrix_orthogonal c h0 h48 (ColumnMatrix3d.identity (α := α))
  have hd := getAtoBMatrix_determinant c h0 h48 (ColumnMatrix3d.identity (α := α))
  rw [matrixCob3x3_eq_conj c h0 h48 ColumnMatrix3d.identity M _ rfl]
  refine ⟨conj_trace _ M hP, conj_determinant _ M hd, fun h => ⟨?_, ?_⟩⟩
  · exact conj_orthogonal _ M hP hP2 h.1
  · rw [conj_determinant _ M hd]
    exact h.2

theorem matrixCob3x3_preserves_rotations_witness :
    (0 : Int) ≤ 16 ∧ (16 : Int) < 48 ∧
      (matrixCob3x3 16 (⟨0, -1, 0, 1, 0, 0, 0, 0, 1⟩ : ColumnMatrix3d Int)).trace = 1 ∧
      (matrixCob3x3 16 (⟨0, -1, 0, 1, 0, 0, 0, 0, 1⟩ : ColumnMatrix3d Int)).mul
          (matrixCob3x3 16 (⟨0, -1, 0, 1, 0, 0, 0, 0, 1⟩ : ColumnMatrix3d Int)).transpose =
        ColumnMatrix3d.identity ∧
      (matrixCob3x3 16 (⟨0, -1, 0, 1, 0, 0, 0, 0, 1⟩ : ColumnMatrix3d Int)).determinant = 1 :=
  ⟨by decide, by decide,
    (matrixCob3x3_preserves_rotations 16 (by decide) (by decide) _).1,
    ((matrixCob3x3_preserves_rotations 16 (by decide) (by decide) _).2.2
      ⟨by decide, by decide⟩).1,
    ((matrixCob3x3_preserves_rotations 16 (by decide) (by decide) _).2.2
      ⟨by decide, by decide⟩).2⟩

/-- C39: each of the seven named frame constants is well formed: its three entries are
directions and their unsigned axes are pairwise distinct. -/
theorem named_frames_wellFormed :
    WellFormed Unreal3Frame ∧ WellFormed OpenGLFrame ∧ WellFormed OculusFrame ∧
      WellFormed BvhFrame ∧ WellFormed BvhBlenderFrame ∧ WellFormed KinectFrame ∧
      WellFormed PrioVRFrame :=
  ⟨by decide, by decide, by decide, by decide, by decide, by decide, by decide⟩

/-- C32: for well-formed frames, the sign bit of the case number for an axis of `from`
(`0x04` for `a`, `0x02` for `b`, `0x01` for `c`) is set exactly when that axis is the
opposite direction of the axis of `to` sharing its unsigned axis; and the case number is
a multiple of 8 exactly when `to` holds the same three signed directions as `from`. -/
theorem getCaseNumber_sign_bits (fromFrame toFrame : triple) (hf : WellFormed fromFrame)
    (hg : WellFormed toFrame) :
    (∀ i j : Fin 3, matchDirection (fromFrame.axis i) (toFrame.axis j) = true →
      (Int.land (getCaseNumber fromFrame toFrame) (signMask i) ≠ 0 ↔
        isOpposite (fromFrame.axis i) (toFrame.axis j))) ∧
    (getCaseNumber fromFrame toFrame % 8 = 0 ↔
      ∀ d, fromFrame.has d ↔ toFrame.has d) := by
  obtain ⟨h0, h48, hm⟩ := caseMatrix_getCaseNumber fromFrame toFrame hf hg
  obtain ⟨s4, s2, s1, s0⟩ := caseMatrix_column_signs _ h0 h48
  rw [hm] at s4 s2 s1
  simp only [frameMatrix] at s4 s2 s1
  have hg' := mem_allFrames_of_wellFormed toFrame hg
  have ca := column_sum_neg_iff toFrame hg' fromFrame.a ((mem_directions _).2 hf.1)
  have cb := column_sum_neg_iff toFrame hg' fromFrame.b ((mem_directions _).2 hf.2.1)
  have cc := column_sum_neg_iff toFrame hg' fromFrame.c ((mem_directions _).2 hf.2.2.1)
  constructor
  · intro i
    fin_cases i <;> intro j hij
    · exact s4.trans (ca.2 j hij)
    · exact s2.trans (cb.2 j hij)
    · exact s1.trans (cc.2 j hij)
  · have ea := not_not.symm.trans ((not_congr (s4.trans ca.1)).trans not_not)
    have eb := not_not.symm.trans ((not_congr (s2.trans cb.1)).trans not_not)
    have ec := not_not.symm.trans ((not_congr (s1.trans cc.1)).trans not_not)
    rw [s0, ea, eb, ec]
    exact has_iff_of_has fromFrame toFrame hf

theorem getCaseNumber_sign_bits_witness :
    WellFormed KinectFrame ∧ WellFormed OpenGLFrame ∧
      (∀ i j : Fin 3, matchDirection (KinectFrame.axis i) (OpenGLFrame.axis j) = true →
        (Int.land (getCaseNumber KinectFrame OpenGLFrame) (signMask i) ≠ 0 ↔
          isOpposite (KinectFrame.axis i) (OpenGLFrame.axis j))) ∧
      (getCaseNumber KinectFrame OpenGLFrame % 8 = 0 ↔
        ∀ d, KinectFrame.has d ↔ OpenGLFrame.has d) :=
  ⟨by decide, by decide,
    getCaseNumber_sign_bits KinectFrame OpenGLFrame (by decide) (by decide)⟩

/-- C34: for a fixed well-formed `from`, the map sending `to` to
`getCaseNumber(from, to)` is a bijection from the well-formed frames onto the integers
`0..47`: it takes values in that range, is one-to-one, reaches every case number
(47 included), and gives 0 only when `to` equals `from`. -/
theorem getCaseNumber_bijective (fromFrame : triple) (hf : WellFormed fromFrame) :
    Set.BijOn (getCaseNumber fromFrame) {g | WellFormed g} (Set.Ico 0 48) ∧
      (∃ g, WellFormed g ∧ getCaseNumber fromFrame g = 47) ∧
      ∀ g, WellFormed g → getCaseNumber fromFrame g = 0 → g = fromFrame := by
  refine ⟨⟨?_, ?_, ?_⟩, ?_, ?_⟩
  · intro g _
    exact ⟨(getCaseNumber_range fromFrame g).1, (getCaseNumber_range fromFrame g).2.1⟩
  · intro g1 h1 g2 h2 h
    exact getCaseNumber_injective fromFrame g1 g2 hf h1 h2 h
  · intro c hc
    obtain ⟨g, hg, h⟩ := getCaseNumber_surjective fromFrame hf c hc.1 hc.2
    exact ⟨g, hg, h⟩
  · exact getCaseNumber_surjective fromFrame hf 47 (by decide) (by decide)
  · intro g hg h
    exact getCaseNumber_injective fromFrame g fromFrame hf hg hf
      (h.trans (getCaseNumber_self fromFrame).symm)

theorem getCaseNumber_bijective_witness :
    WellFormed Unreal3Frame ∧
      Set.BijOn (getCaseNumber Unreal3Frame) {g | WellFormed g} (Set.Ico 0 48) ∧
      (∃ g, WellFormed g ∧ getCaseNumber Unreal3Frame g = 47) ∧
      ∀ g, WellFormed g → getCaseNumber Unreal3Frame g = 0 → g = Unreal3Frame :=
  ⟨by decide, getCaseNumber_bijective Unreal3Frame (by decide)⟩

/-- C36: the Euler case is symmetric.  For well-formed frames `A` and `B`,
`getEulerCaseNumber(A, B) = getEulerCaseNumber(B, A)`, so applying `eulerCob` with the
case of `A` to `B` and then with the case of `B` to `A` returns the original angles; and
`getEulerCaseNumber(A, A) = 0`. -/
theorem getEulerCaseNumber_symmetric {α : Type} [CommRing α] (A B : triple)
    (hA : WellFormed A) (hB : WellFormed B) (e : YawPitchRoll α) :
    getEulerCaseNumber A B = getEulerCaseNumber B A ∧
      eulerCob (getEulerCaseNumber B A) (eulerCob (getEulerCaseNumber A B) e) = e ∧
      getEulerCaseNumber A A = 0 := by
  have hs : getEulerCaseNumber A B = getEulerCaseNumber B A := by
    rw [getEulerCaseNumber_eq_eulerBits A B hA hB, getEulerCaseNumber_eq_eulerBits B A hB hA]
    simp only [pairFlip_symm A B hA hB]
  refine ⟨hs, ?_, ?_⟩
  · rw [← hs, getEulerCaseNumber_eq_eulerBits A B hA hB, eulerCob_eulerBits,
      eulerCob_eulerBits]
    cases pairFlip A B .yaw <;> cases pairFlip A B .pitch <;> cases pairFlip A B .roll <;>
      simp
  · rw [getEulerCaseNumber_eq_eulerBits A A hA hA]
    simp only [pairFlip_self]
    rfl

theorem getEulerCaseNumber_symmetric_witness :
    WellFormed KinectFrame ∧ WellFormed Unreal3Frame ∧
      getEulerCaseNumber KinectFrame Unreal3Frame =
        getEulerCaseNumber Unreal3Frame KinectFrame ∧
      eulerCob (getEulerCaseNumber Unreal3Frame KinectFrame)
        (eulerCob (getEulerCaseNumber KinectFrame Unreal3Frame)
          (⟨10, 20, 30⟩ : YawPitchRoll Int)) = ⟨10, 20, 30⟩ ∧
      getEulerCaseNumber KinectFrame KinectFrame = 0 :=
  ⟨by decide, by decide,
    getEulerCaseNumber_symmetric KinectFrame Unreal3Frame (by decide) (by decide) _⟩

/-- C37: Euler cases compose by XOR.  For well-formed frames `A`, `B`, `C`,
`getEulerCaseNumber(A, C)` is the bitwise XOR of `getEulerCaseNumber(A, B)` and
`getEulerCaseNumber(B, C)`, so converting angles from `A` to `B` and then from `B` to `C`
gives the same angles as converting from `A` to `C`. -/
theorem getEulerCaseNumber_xor {α : Type} [CommRing α] (A B C : triple)
    (hA : WellFormed A) (hB : WellFormed B) (hC : WellFormed C) (e : YawPitchRoll α) :
    getEulerCaseNumber A C =
        Int.xor (getEulerCaseNumber A B) (getEulerCaseNumber B C) ∧
      eulerCob (getEulerCaseNumber B C) (eulerCob (getEulerCaseNumber A B) e) =
        eulerCob (getEulerCaseNumber A C) e := by
  rw [getEulerCaseNumber_eq_eulerBits A B hA hB, getEulerCaseNumber_eq_eulerBits B C hB hC,
    getEulerCaseNumber_eq_eulerBits A C hA hC, eulerBits_xor]
  simp only [← pairFlip_comp A B C hA hB hC, eulerCob_eulerBits, true_and]
  cases pairFlip A B .yaw <;> cases pairFlip A B .pitch <;> cases pairFlip A B .roll <;>
    cases pairFlip B C .yaw <;> cases pairFlip B C .pitch <;> cases pairFlip B C .roll <;>
    simp

theorem getEulerCaseNumber_xor_witness :
    WellFormed KinectFrame ∧ WellFormed Unreal3Frame ∧ WellFormed OpenGLFrame ∧
      getEulerCaseNumber KinectFrame OpenGLFrame =
        Int.xor (getEulerCaseNumber KinectFrame Unreal3Frame)
          (getEulerCaseNumber Unreal3Frame OpenGLFrame) ∧
      eulerCob (getEulerCaseNumber Unreal3Frame OpenGLFrame)
        (eulerCob (getEulerCaseNumber KinectFrame Unreal3Frame)
          (⟨10, 20, 30⟩ : YawPitchRoll Int)) =
        eulerCob (getEulerCaseNumber KinectFrame OpenGLFrame) ⟨10, 20, 30⟩ :=
  ⟨by decide, by decide, by decide,
    getEulerCaseNumber_xor KinectFrame Unreal3Frame OpenGLFrame (by decide) (by decide)
      (by decide) _⟩

end cob
